import Mathlib

/-!
Verification development for the symbiont agent-based simulation
(`event_list.py`, `symbiont.py`, `sponge.py`, `parameters.py`).

The Python source is shallowly embedded: real-valued quantities become `ℚ`,
times that may be `INFINITY` become `WithTop ℚ`, Python exceptions become
`Except PyError`, and every random draw made through the external variate
source (`rng_mt19937.py`, not part of the sources) becomes an explicit
oracle argument, so that each embedded operation is a pure function of the
pre-state and the draws it consumes.
-/

set_option maxRecDepth 4000

/-- Python runtime errors that the embedded code can raise. -/
inductive PyError where
  /-- a failed `assert` statement -/
  | assertionError : PyError
  /-- an explicit `raise ValueError` -/
  | valueError : PyError
  /-- `TypeError`, e.g. comparing two `Enum` members with `<` -/
  | typeError : PyError
  /-- list subscript out of range -/
  | indexError : PyError
  /-- attribute access on `None` -/
  | attributeError : PyError
  deriving Repr, DecidableEq

/-- `EventType` from `event_list.py`: the kinds of simulation events.
The declaration order there carries the intended tie-break priority. -/
inductive EventType where
  | EVENT_MIN_SENTINEL : EventType
  | ESCAPE : EventType
  | DIGESTION : EventType
  | END_G0 : EventType
  | END_G1SG2M : EventType
  | DENOUEMENT : EventType
  | ARRIVAL : EventType
  | EVENT_MAX_SENTINEL : EventType
  deriving Repr, DecidableEq

/-- The integer `value` of each `EventType` member as declared in
`event_list.py` (ESCAPE = 0, ..., ARRIVAL = 5). -/
def EventType.value : EventType → ℤ
  | .EVENT_MIN_SENTINEL => -1
  | .ESCAPE => 0
  | .DIGESTION => 1
  | .END_G0 => 2
  | .END_G1SG2M => 3
  | .DENOUEMENT => 4
  | .ARRIVAL => 5
  | .EVENT_MAX_SENTINEL => 6

/-- `Event` from `event_list.py`: an event record.  `event_num` is the value
of the class-level counter `Event._event_cnt` at creation time (creation
sequence number). -/
structure Event where
  time : ℚ
  etype : EventType
  event_num : ℤ
  deriving Repr, DecidableEq

/-- `Event.__lt__` from `event_list.py`, with CPython semantics: the tuple
comparison `(time, type, num) < (time', type', num')` proceeds left to right,
moving past a component only when the two sides are `==`-equal.  `EventType`
derives from plain `enum.Enum`, which defines no ordering, so when the times
are equal and the types differ the comparison `self._type < other._type`
raises `TypeError` rather than consulting the declared kind priority. -/
def eventLt (a b : Event) : Except PyError Bool :=
  if a.time = b.time then
    if a.etype = b.etype then .ok (decide (a.event_num < b.event_num))
    else .error .typeError
  else .ok (decide (a.time < b.time))

/-- `heapq._siftdown` from CPython's `heapq.py`, as invoked by `heappush`:
bubble `newitem` (sitting at index `pos`) up toward `startpos`, comparing
with `<` (here `eventLt`, which can raise). -/
def siftdown (heap : List Event) (startpos pos : Nat) (newitem : Event) :
    Except PyError (List Event) :=
  if _hgt : startpos < pos then
    match heap.get? ((pos - 1) / 2) with
    | none => .error .indexError
    | some parent =>
      match eventLt newitem parent with
      | .error e => .error e
      | .ok true => siftdown (heap.set pos parent) startpos ((pos - 1) / 2) newitem
      | .ok false => .ok (heap.set pos newitem)
  else .ok (heap.set pos newitem)
termination_by pos
decreasing_by
  have hd : (pos - 1) / 2 ≤ pos - 1 := Nat.div_le_self _ _
  omega

/-- `heapq.heappush`: append the item, then sift it up. -/
def heappush (heap : List Event) (item : Event) : Except PyError (List Event) :=
  siftdown (heap ++ [item]) 0 heap.length item

/-- `EventList` from `event_list.py` is a bare binary heap of events. -/
structure EventList where
  heap : List Event
  deriving Repr, DecidableEq

/-- `EventList.__init__`: an empty event list. -/
def EventList.empty : EventList := { heap := [] }

/-- `EventList.insertEvent`: `heappush` onto the internal heap (the
`assert(event != None)` cannot fail in the embedding, where an event is
always supplied). -/
def EventList.insertEvent (lst : EventList) (event : Event) :
    Except PyError EventList :=
  match heappush lst.heap event with
  | .error e => .error e
  | .ok h => .ok { heap := h }

/-- Simulation times: a rational instant or `INFINITY` (`⊤`), the sentinel
`float('inf')` defined in `parameters.py`.  The order on `WithTop ℚ` agrees
with Python float comparison against `inf`. -/
abbrev Time := WithTop ℚ

/-- `SymbiontState` from `symbiont.py`. -/
inductive SymbiontState where
  | CELL_OUTSIDE_ENVIRONMENT : SymbiontState
  | ARRIVED_FROM_POOL : SymbiontState
  | ARRIVED_VIA_DIVISION : SymbiontState
  | IN_G0 : SymbiontState
  | IN_G1SG2M : SymbiontState
  | CHILD_INFECTS_OUTSIDE : SymbiontState
  | CHILD_EVICTED : SymbiontState
  | CHILD_NO_AFFINITY : SymbiontState
  | PARENT_INFECTS_OUTSIDE : SymbiontState
  | PARENT_EVICTED : SymbiontState
  | PARENT_NO_AFFINITY : SymbiontState
  | BOTH_STAY : SymbiontState
  | STILL_IN_RESIDENCE : SymbiontState
  | DIGESTION_IN_G0 : SymbiontState
  | DIGESTION_IN_G1SG2M : SymbiontState
  | ESCAPE_IN_G0 : SymbiontState
  | ESCAPE_IN_G1SG2M : SymbiontState
  | DENOUEMENT_IN_G0 : SymbiontState
  | DENOUEMENT_IN_G1SG2M : SymbiontState
  deriving Repr, DecidableEq

/-- `MutationType` from the variate source.  Modelled from the spec:
`rng_mt19937.py` is not among the sources; §6 of the design gives the
`drawMutationAmount` contract returning a kind in
NONE / DELETERIOUS / BENEFICIAL. -/
inductive MutationType where
  | NO_MUTATION : MutationType
  | DELETERIOUS : MutationType
  | BENEFICIAL : MutationType
  deriving Repr, DecidableEq

/-- `Clade`.  Modelled from the spec: `clade.py` is not among the sources;
§3 describes a clade as a bundle of species-level parameters, and the getter
calls made from `symbiont.py` (`getMCR`, `getG0Length`, ...) fix the fields
needed here.  Each field holds the value the corresponding getter returns. -/
structure Clade where
  mcr : ℚ
  mcr_fuzz : ℚ
  ppr : ℚ
  ppr_fuzz : ℚ
  photosynthetic_reduction : ℚ
  max_initial_surplus : ℚ
  initial_surplus_shape : ℚ
  initial_surplus_scale : ℚ
  g0_length : ℚ
  g0_fuzz : ℚ
  g1sg2m_length : ℚ
  g1sg2m_fuzz : ℚ
  avg_residence_time : ℚ
  residence_fuzz : ℚ
  g0_escape_prob : ℚ
  g1sg2m_escape_prob : ℚ
  parent_eviction_prob : ℚ
  arrival_affinity_prob : ℚ
  division_affinity_prob : ℚ
  deriving Repr, DecidableEq

/-- `Cell` from `sponge.py` (the occupying symbiont is kept as an id, enough
for the occupancy bookkeeping the claims touch). -/
structure Cell where
  row : ℤ
  col : ℤ
  demand : ℚ
  occupied : Bool
  symbiont : Option ℤ
  last_occupied_time : Time
  sum_residence_time : ℚ
  num_occupants : ℤ
  deriving Repr, DecidableEq

/-- `Cell.removeSymbiont` from `sponge.py`. -/
def Cell.removeSymbiont (c : Cell) (current_time : ℚ) : Except PyError Cell :=
  -- assert(self._last_occupied_time != INFINITY)
  match c.last_occupied_time with
  | ⊤ => .error .assertionError
  | (t0 : ℚ) =>
    .ok { c with
          symbiont := none
          occupied := false
          sum_residence_time := c.sum_residence_time + (current_time - t0)
          num_occupants := c.num_occupants + 1
          last_occupied_time := ⊤ }

/-- `Cell.setSymbiont` from `sponge.py`. -/
def Cell.setSymbiont (c : Cell) (symbiont_id : ℤ) (current_time : ℚ) : Cell :=
  let c1 :=
    if c.symbiont ≠ none then
      -- something was just evicted: close out its residence rectangle
      { c with
        sum_residence_time :=
          c.sum_residence_time +
            (match c.last_occupied_time with
             | (t0 : ℚ) => current_time - t0
             | ⊤ => 0)  -- unreachable: an occupied cell has a finite start time
        num_occupants := c.num_occupants + 1 }
    else c
  { c1 with
    symbiont := some symbiont_id
    occupied := true
    last_occupied_time := (current_time : Time) }

/-- `Sponge` from `sponge.py`: dimensions plus the 2D array of cells,
embedded as a coordinate-indexed function.  `Parameters.NUM_ROWS` and
`Parameters.NUM_COLS` coincide with these dimensions (the driver builds the
sponge from them), so both the bounds checks in `getCell` and the wraparound
in the neighbor search read them from here. -/
structure Sponge where
  num_rows : ℤ
  num_cols : ℤ
  cells : ℤ → ℤ → Cell

/-- `Sponge.getCell` from `sponge.py`: bounds-checked lookup that raises
`ValueError` when out of range. -/
def Sponge.getCell (s : Sponge) (row col : ℤ) : Except PyError Cell :=
  if row < 0 ∨ row ≥ s.num_rows ∨ col < 0 ∨ col ≥ s.num_cols then
    .error .valueError
  else
    .ok (s.cells row col)

/-- The per-symbiont instance variables of `Symbiont` from `symbiont.py`
(the CSV-only string bookkeeping keeps cell coordinates instead of the
formatted strings). -/
structure Symbiont where
  id : ℤ
  clade_number : ℤ
  my_clade : Clade
  cell : Option Cell
  how_arrived : SymbiontState
  parent_id : ℤ
  agent_zero : ℤ
  num_divisions : ℤ
  mitotic_cost_rate : ℚ
  production_rate : ℚ
  photosynthate_surplus : ℚ
  surplus_on_arrival : ℚ
  cells_inhabited : List (ℤ × ℤ)
  inhabit_times : List ℚ
  hcds_of_cells_inhabited : List ℚ
  g0_times : List ℚ
  g1sg2m_times : List ℚ
  arrival_time : ℚ
  time_of_escape : Time
  time_of_digestion : Time
  time_of_denouement : Time
  time_of_next_end_g0 : Time
  time_of_next_end_g1sg2m : Time
  prev_event_time : ℚ
  prev_event_type : Option EventType
  next_event_time : Time
  next_event_type : Option EventType
  deriving DecidableEq

/-- The draws `_computeSurplusAtEventEnd` can make through the variate
source.  Modelled from the spec: the variate source itself is external
(§6); `coin` stands for the `RNG.uniform(0, 1, stream_prob)` draw and
`escapeDraw lo hi` for the `RNG.uniform(this_time, t_d, stream_exit)` draw. -/
structure SurplusRNG where
  coin : ℚ
  escapeDraw : ℚ → ℚ → ℚ

/-- `Symbiont._computeSurplusAtEventEnd` from `symbiont.py`: project the
photosynthate balance linearly to `next_time`; when the projection is
negative, solve the two-point line equation for the zero crossing `t_d`
and flip the state-dependent escape coin for an optional earlier exit
time.  The mitotic cost is expended only when `state` is `IN_G1SG2M`.
Python raises `AssertionError` when the negative branch is entered with
`next_time - this_time ≤ 0`, and when `state` is neither `IN_G0` nor
`IN_G1SG2M` there (the `assert(False)` arm). -/
def computeSurplusAtEventEnd (s : Symbiont) (this_time next_time : ℚ)
    (state : Option SymbiontState) (rng : SurplusRNG) :
    Except PyError (ℚ × Option ℚ × Option ℚ) :=
  match s.cell with
  | none => .error .attributeError  -- self._cell.getDemand() on None
  | some cell =>
    let time_diff := next_time - this_time
    let produced := time_diff * s.production_rate
    let demanded := time_diff * cell.demand
    let expended : ℚ :=
      if state = some SymbiontState.IN_G1SG2M then time_diff * s.mitotic_cost_rate
      else 0
    let surplus_at_end := s.photosynthate_surplus + produced - demanded - expended
    if surplus_at_end < 0 then
      if ¬ (next_time - this_time > 0) then .error .assertionError
      else
        let m := (surplus_at_end - s.photosynthate_surplus) / (next_time - this_time)
        let t_d := this_time - s.photosynthate_surplus / m
        let prob? : Option ℚ :=
          if state = some SymbiontState.IN_G0 then some s.my_clade.g0_escape_prob
          else if state = some SymbiontState.IN_G1SG2M then some s.my_clade.g1sg2m_escape_prob
          else none
        match prob? with
        | none => .error .assertionError  -- the assert(False) arm
        | some prob =>
          let t_ee : Option ℚ :=
            if rng.coin < prob then some (rng.escapeDraw this_time t_d) else none
          .ok (surplus_at_end, some t_d, t_ee)
    else
      .ok (surplus_at_end, none, none)

/-- `Symbiont._setNextEvent` from `symbiont.py`: recompute the single
next-event (time, type) pair from the five candidate times, starting from
end-of-G0 and replacing it only on strictly earlier candidates, in the
order END_G1SG2M, ESCAPE, DIGESTION, DENOUEMENT. -/
def setNextEvent (s : Symbiont) : Symbiont :=
  let t0 : Time := s.time_of_next_end_g0
  let y0 : EventType := .END_G0
  let (t1, y1) :=
    if s.time_of_next_end_g1sg2m < t0 then (s.time_of_next_end_g1sg2m, EventType.END_G1SG2M)
    else (t0, y0)
  let (t2, y2) :=
    if s.time_of_escape < t1 then (s.time_of_escape, EventType.ESCAPE) else (t1, y1)
  let (t3, y3) :=
    if s.time_of_digestion < t2 then (s.time_of_digestion, EventType.DIGESTION) else (t2, y2)
  let (t4, y4) :=
    if s.time_of_denouement < t3 then (s.time_of_denouement, EventType.DENOUEMENT) else (t3, y3)
  { s with next_event_time := t4, next_event_type := some y4 }

/-- A concrete clade used as test input (the §8 break-even agent draws). -/
def cladeA : Clade :=
  { mcr := 0, mcr_fuzz := 0, ppr := 1, ppr_fuzz := 0,
    photosynthetic_reduction := 1, max_initial_surplus := 10,
    initial_surplus_shape := 2, initial_surplus_scale := 3/4,
    g0_length := 10, g0_fuzz := 0, g1sg2m_length := 2, g1sg2m_fuzz := 0,
    avg_residence_time := 100, residence_fuzz := 0,
    g0_escape_prob := 1/2, g1sg2m_escape_prob := 1/2,
    parent_eviction_prob := 1/2, arrival_affinity_prob := 1/2,
    division_affinity_prob := 1/2 }

/-- A concrete occupied host cell with demand 1. -/
def cellA : Cell :=
  { row := 0, col := 0, demand := 1, occupied := true, symbiont := some 0,
    last_occupied_time := (0 : ℚ), sum_residence_time := 0, num_occupants := 1 }

/-- The §8 scenario agent: production rate 1, slot demand 1, zero mitotic
cost, balance 5, next end-of-G0 at t = 10. -/
def symbA : Symbiont :=
  { id := 0, clade_number := 0, my_clade := cladeA, cell := some cellA,
    how_arrived := .ARRIVED_FROM_POOL, parent_id := -1, agent_zero := 0,
    num_divisions := 0, mitotic_cost_rate := 0, production_rate := 1,
    photosynthate_surplus := 5, surplus_on_arrival := 5,
    cells_inhabited := [(0, 0)], inhabit_times := [0],
    hcds_of_cells_inhabited := [1], g0_times := [10], g1sg2m_times := [],
    arrival_time := 0, time_of_escape := ⊤, time_of_digestion := ⊤,
    time_of_denouement := (100 : ℚ), time_of_next_end_g0 := (10 : ℚ),
    time_of_next_end_g1sg2m := ⊤, prev_event_time := 0,
    prev_event_type := some .ARRIVAL, next_event_time := (10 : ℚ),
    next_event_type := some .END_G0 }

/-- A fixed dummy oracle for calls whose draws are never consulted. -/
def rng0 : SurplusRNG := { coin := 1, escapeDraw := fun _ _ => 0 }

/-- The balance the code projects at `next_time` (the `surplus_at_end` local
of `_computeSurplusAtEventEnd`, written with the code's own grouping). -/
def surplusProjection (s : Symbiont) (c : Cell) (t1 t2 : ℚ)
    (state : Option SymbiontState) : ℚ :=
  s.photosynthate_surplus + (t2 - t1) * s.production_rate - (t2 - t1) * c.demand -
    (if state = some SymbiontState.IN_G1SG2M then (t2 - t1) * s.mitotic_cost_rate else 0)

/-- The zero-crossing time `t_d` computed in the negative branch. -/
def crossingTime (s : Symbiont) (c : Cell) (t1 t2 : ℚ)
    (state : Option SymbiontState) : ℚ :=
  t1 - s.photosynthate_surplus /
    ((surplusProjection s c t1 t2 state - s.photosynthate_surplus) / (t2 - t1))

/-- The §8 under-producing host cell: demand 2 instead of 1. -/
def cellB : Cell := { cellA with demand := 2 }

/-- The §8 under-producing agent: like `symbA` but in a cell of demand 2. -/
def symbB : Symbiont := { symbA with cell := some cellB }

/-- The five per-symbiont candidate event kinds that `_setNextEvent`
arbitrates between. -/
def schedulableKind (k : EventType) : Prop :=
  k = .ESCAPE ∨ k = .DIGESTION ∨ k = .END_G0 ∨ k = .END_G1SG2M ∨ k = .DENOUEMENT

/-- The kind the Event Calendar's declared kind-priority order
(`EventType` declaration order, smaller `value` first) dispatches first
between two kinds carrying equal times. -/
def calendarFirst (a b : EventType) : EventType :=
  if a.value < b.value then a else b

/-- A symbiont holding exactly the two candidate kinds `k1` and `k2`, both
at time `t`, every other candidate time `INFINITY`. -/
def candTime (k1 k2 : EventType) (t : ℚ) (k : EventType) : Time :=
  if k1 = k ∨ k2 = k then (t : Time) else ⊤

/-- The two-candidate symbiont state fed to `_setNextEvent` when comparing
the per-agent selection order with the calendar's kind order. -/
def pairState (k1 k2 : EventType) (t : ℚ) : Symbiont :=
  { symbA with
    time_of_escape := candTime k1 k2 t .ESCAPE
    time_of_digestion := candTime k1 k2 t .DIGESTION
    time_of_denouement := candTime k1 k2 t .DENOUEMENT
    time_of_next_end_g0 := candTime k1 k2 t .END_G0
    time_of_next_end_g1sg2m := candTime k1 k2 t .END_G1SG2M }

/-- Two candidate kinds on which the two orders genuinely differ: one of
ESCAPE / DIGESTION against one of END_G0 / END_G1SG2M. -/
def crossPair (a b : EventType) : Prop :=
  ((a = .ESCAPE ∨ a = .DIGESTION) ∧ (b = .END_G0 ∨ b = .END_G1SG2M)) ∨
  ((b = .ESCAPE ∨ b = .DIGESTION) ∧ (a = .END_G0 ∨ a = .END_G1SG2M))

/-- One `RNG.divfuzz` draw.  Modelled from the spec: the variate source's
`drawMutationAmount` contract (§6) returns a magnitude and a mutation kind. -/
structure DivFuzzDraw where
  fuzzamt : ℚ
  mutation : MutationType

/-- The draws `_scheduleInitialEvents` makes: the fuzzed residence time,
the fuzzed G0 length, and the projection draws. -/
structure ScheduleRNG where
  residence_time : ℚ
  g0_time : ℚ
  surplus_rng : SurplusRNG

/-- The draws `_SymbiontCopy` makes: mutation draws for the mitotic cost
rate, the surplus split and the production rate, plus the child's initial
scheduling draws. -/
structure CopyRNG where
  mcr_draw : DivFuzzDraw
  surplus_draw : DivFuzzDraw
  ppr_draw : DivFuzzDraw
  sched : ScheduleRNG

/-- Times assigned from an optional computed time.  The `none` arm cannot
be reached at the assignment sites (`_computeSurplusAtEventEnd` returns a
digestion time whenever the projected surplus is negative, see
`computeSurplus_neg_g0`); `⊤` is a dead default. -/
def optTime (o : Option ℚ) : Time :=
  match o with
  | some v => (v : Time)
  | none => ⊤

/-- `Symbiont._computeProductionRate` from `symbiont.py`.  For a division
copy, the parent's rate is re-derived for the new row and hit with a
mutation draw; for a pool arrival the rate is a normal fuzz of the
row-adjusted clade baseline, so the drawn value itself (`fuzz_draw`) is
returned.  (Lean's total `ℚ`-division makes the `k = 0` and
`num_rows = 1` cases yield 0 where Python would raise
`ZeroDivisionError`; no claim touches those runs.) -/
def computeProductionRate (s : Symbiont) (num_rows : ℤ) (is_copy : Bool)
    (copy_draw : DivFuzzDraw) (fuzz_draw : ℚ) : Except PyError ℚ :=
  match s.cell with
  | none => .error .attributeError
  | some c =>
    let k := s.my_clade.photosynthetic_reduction
    let rho := if is_copy then s.production_rate else s.my_clade.ppr
    let rate := rho + ((1 - k) / k) * ((c.row : ℚ) * rho / ((num_rows : ℚ) - 1))
    if is_copy then
      match copy_draw.mutation with
      | .DELETERIOUS => .ok (rate - copy_draw.fuzzamt)
      | _ => .ok (rate + copy_draw.fuzzamt)
    else
      .ok fuzz_draw

/-- `Symbiont._scheduleInitialEvents` from `symbiont.py`: draw the
denouement time and the first end-of-G0 time, then project the balance
through G0 and schedule digestion/escape instead if it goes negative. -/
def scheduleInitialEvents (s : Symbiont) (current_time : ℚ) (rng : ScheduleRNG) :
    Except PyError Symbiont :=
  let s1 := { s with time_of_denouement := ((current_time + rng.residence_time : ℚ) : Time) }
  let next_g0 := current_time + rng.g0_time
  let s2 := { s1 with
              time_of_next_end_g0 := (next_g0 : Time)
              g0_times := s1.g0_times ++ [rng.g0_time] }
  match computeSurplusAtEventEnd s2 current_time next_g0 (some SymbiontState.IN_G0)
      rng.surplus_rng with
  | .error e => .error e
  | .ok (surplus_at_end, time_of_digestion, time_of_exit) =>
    if surplus_at_end < 0 then
      let s3 := { s2 with time_of_digestion := optTime time_of_digestion }
      match time_of_exit with
      | some v => .ok { s3 with time_of_escape := (v : Time) }
      | none => .ok s3
    else
      .ok s2

/-- `Symbiont._SymbiontCopy` from `symbiont.py`: build the division child
as a modified copy of the parent, mutate its mitotic cost rate, hand it a
(possibly mutated) half of the parent's banked photosynthate, decrement
the parent by exactly that amount, and, when the child has a cell,
recompute its production rate and schedule its initial events.  Returns
(child, updated parent); `next_id` is the value of the class counter
`Symbiont._count`. -/
def symbiontCopy (s : Symbiont) (cell : Option Cell) (current_time : ℚ)
    (next_id : ℤ) (num_rows : ℤ) (rng : CopyRNG) :
    Except PyError (Symbiont × Symbiont) :=
  let ns0 := { s with
               id := next_id
               num_divisions := 0
               how_arrived := SymbiontState.ARRIVED_VIA_DIVISION
               parent_id := s.id
               agent_zero := s.agent_zero
               cell := cell
               arrival_time := current_time
               prev_event_time := current_time
               prev_event_type := some EventType.ARRIVAL
               cells_inhabited := []
               inhabit_times := []
               hcds_of_cells_inhabited := []
               g0_times := []
               g1sg2m_times := [] }
  -- assert(new_symbiont._mitotic_cost_rate == self._mitotic_cost_rate):
  -- holds by construction of the copy
  let ns1 :=
    match rng.mcr_draw.mutation with
    | .DELETERIOUS => { ns0 with mitotic_cost_rate := ns0.mitotic_cost_rate + rng.mcr_draw.fuzzamt }
    | _ => { ns0 with mitotic_cost_rate := ns0.mitotic_cost_rate - rng.mcr_draw.fuzzamt }
  let half := s.photosynthate_surplus / 2
  let fuzzedhalf :=
    match rng.surplus_draw.mutation with
    | .DELETERIOUS => half - rng.surplus_draw.fuzzamt
    | .BENEFICIAL => half + rng.surplus_draw.fuzzamt
    | .NO_MUTATION => half
  let ns2 := { ns1 with photosynthate_surplus := fuzzedhalf, surplus_on_arrival := fuzzedhalf }
  let parent1 := { s with photosynthate_surplus := s.photosynthate_surplus - fuzzedhalf }
  match cell with
  | none => .ok (ns2, parent1)
  | some c =>
    -- assert(new_symbiont._production_rate == self._production_rate):
    -- holds by construction of the copy
    match computeProductionRate ns2 num_rows true rng.ppr_draw 0 with
    | .error e => .error e
    | .ok rate =>
      let ns3 := { ns2 with production_rate := rate }
      match scheduleInitialEvents ns3 current_time rng.sched with
      | .error e => .error e
      | .ok ns4 =>
        let ns5 := setNextEvent ns4
        .ok ({ ns5 with
               cells_inhabited := [(c.row, c.col)]
               inhabit_times := [current_time]
               hcds_of_cells_inhabited := [c.demand] }, parent1)

/-- Concrete division draws for the C5 witness: a deleterious surplus split
mutation of magnitude 1. -/
def copyRng0 : CopyRNG :=
  { mcr_draw := { fuzzamt := 0, mutation := .NO_MUTATION },
    surplus_draw := { fuzzamt := 1, mutation := .DELETERIOUS },
    ppr_draw := { fuzzamt := 0, mutation := .NO_MUTATION },
    sched := { residence_time := 50, g0_time := 5, surplus_rng := rng0 } }

/-- The draws `Symbiont.__init__` makes: the fuzzed mitotic cost rate, the
fuzzed production rate, the gamma draws offered to the initial-surplus
rejection loop, and the initial scheduling draws. -/
structure InitRNG where
  mcr_draw : ℚ
  ppr_draw : ℚ
  surplus_draws : List ℚ
  sched : ScheduleRNG

/-- `Symbiont.__init__` from `symbiont.py`, for pool arrivals.  `clades` is
the clade registry (`Clade.getClade`; `clade.py` is not among the sources,
so the registry is modelled from the spec as the list of clade parameter
bundles, `Parameters.NUM_CLADES` being its length).  The initial-surplus
rejection loop (`while surplus > clade_max: redraw`) accepts the first
offered draw not exceeding the clade maximum; a draw list exhausted
without an acceptable value corresponds to a run of the loop that has not
terminated yet, embedded as an error. -/
def Symbiont.init (clades : List Clade) (num_rows : ℤ) (clade_number : ℤ)
    (cell : Cell) (current_time : ℚ) (next_id : ℤ) (rng : InitRNG) :
    Except PyError Symbiont :=
  if clade_number < 0 ∨ clade_number ≥ (clades.length : ℤ) then .error .valueError
  else
    match clades.get? clade_number.toNat with
    | none => .error .indexError
    | some my_clade =>
      match rng.surplus_draws.find? (fun d => decide (¬ d > my_clade.max_initial_surplus)) with
      | none => .error .assertionError
      | some surplus =>
        let s0 : Symbiont :=
          { id := next_id
            clade_number := clade_number
            my_clade := my_clade
            cell := some cell
            how_arrived := SymbiontState.ARRIVED_FROM_POOL
            parent_id := -1
            agent_zero := next_id
            num_divisions := 0
            mitotic_cost_rate := rng.mcr_draw
            production_rate := 0  -- assigned from _computeProductionRate below
            photosynthate_surplus := surplus
            surplus_on_arrival := surplus
            cells_inhabited := [(cell.row, cell.col)]
            inhabit_times := [current_time]
            hcds_of_cells_inhabited := [cell.demand]
            g0_times := []
            g1sg2m_times := []
            arrival_time := current_time
            time_of_escape := ⊤
            time_of_digestion := ⊤
            time_of_denouement := ⊤
            time_of_next_end_g0 := ⊤
            time_of_next_end_g1sg2m := ⊤
            prev_event_time := current_time
            prev_event_type := some EventType.ARRIVAL
            next_event_time := ⊤
            next_event_type := none }
        match computeProductionRate s0 num_rows false
            { fuzzamt := 0, mutation := .NO_MUTATION } rng.ppr_draw with
        | .error e => .error e
        | .ok rate =>
          let s1 := { s0 with production_rate := rate }
          match scheduleInitialEvents s1 current_time rng.sched with
          | .error e => .error e
          | .ok s2 => .ok (setNextEvent s2)

/-- The draws `endOfG0` makes: projection draws for the balance recompute
since the previous event, the fuzzed G1SG2M length, and projection draws
for the look-ahead across mitosis. -/
structure EndG0RNG where
  rng1 : SurplusRNG
  g1sg2m_time : ℚ
  rng2 : SurplusRNG

/-- `Symbiont.endOfG0` from `symbiont.py`: clear the end-of-G0 time,
recompute the balance since the previous event (asserting no exit was
computed), draw the G1SG2M length, project across it, and either schedule
the end-of-G1SG2M or a digestion/escape replacing it; finally refresh the
next-event selection. -/
def endOfG0 (s : Symbiont) (current_time : ℚ) (rng : EndG0RNG) :
    Except PyError Symbiont :=
  let s0 := { s with time_of_next_end_g0 := (⊤ : Time) }
  if ¬ (s0.prev_event_type = some EventType.ARRIVAL ∨
        s0.prev_event_type = some EventType.END_G1SG2M) then .error .assertionError
  else
    match computeSurplusAtEventEnd s0 s0.prev_event_time current_time
        (some SymbiontState.IN_G0) rng.rng1 with
    | .error e => .error e
    | .ok (surplus_at_end, time_of_digestion, time_of_exit) =>
      if time_of_digestion ≠ none then .error .assertionError
      else if time_of_exit ≠ none then .error .assertionError
      else
        let s1 := { s0 with photosynthate_surplus := surplus_at_end }
        let time_of_end_g1sg2m := current_time + rng.g1sg2m_time
        let s2 := { s1 with g1sg2m_times := s1.g1sg2m_times ++ [rng.g1sg2m_time] }
        match computeSurplusAtEventEnd s2 current_time time_of_end_g1sg2m
            (some SymbiontState.IN_G1SG2M) rng.rng2 with
        | .error e => .error e
        | .ok (surplus2, digestion2, exit2) =>
          let s3 :=
            if surplus2 < 0 then
              let sa := { s2 with time_of_digestion := optTime digestion2 }
              match exit2 with
              | some v => { sa with time_of_escape := (v : Time) }
              | none => sa
            else
              { s2 with time_of_next_end_g1sg2m := (time_of_end_g1sg2m : Time) }
          .ok (setNextEvent { s3 with
                              prev_event_time := current_time
                              prev_event_type := some EventType.END_G0 })

/-- Result of `_checkForOpenAdjacentCell`: no open neighbor, an open cell
outside the modeled grid (border dispersal), or a found open cell. -/
inductive OpenCellResult where
  | noneFound : OpenCellResult
  | outside : OpenCellResult
  | found : Cell → OpenCellResult
  deriving DecidableEq

/-- Functional update of one grid position. -/
def Sponge.setCellAt (sp : Sponge) (r c : ℤ) (cell : Cell) : Sponge :=
  { sp with cells := fun i j => if i = r ∧ j = c then cell else sp.cells i j }

/-- `Symbiont._determinePhagocytosis` from `symbiont.py`: the uniform
affinity draw succeeds when strictly below the clade's arrival or
division affinity probability. -/
def determinePhagocytosis (clade : Clade) (is_arrival : Bool) (affinity_draw : ℚ) : Bool :=
  if is_arrival then affinity_draw < clade.arrival_affinity_prob
  else affinity_draw < clade.division_affinity_prob

/-- The fixed Moore-neighborhood offsets of `_checkForOpenAdjacentCell`. -/
def moorePositions : List (ℤ × ℤ) :=
  [(-1, -1), (-1, 0), (-1, 1), (0, -1), (0, 1), (1, -1), (1, 0), (1, 1)]

/-- The `while (not found) and len(positions) > 0` loop of
`_checkForOpenAdjacentCell`: `positions.pop()` takes positions from the
end of the shuffled list, so the loop consumes the reversed list.
Out-of-range rows are skipped before any grid access; columns are wrapped
with Python `%` (Euclidean `%` on `ℤ`, identical for a positive modulus). -/
def searchOpenLoop (sp : Sponge) (row col : ℤ) : List (ℤ × ℤ) → Except PyError (Option Cell)
  | [] => .ok none
  | pos :: rest =>
    if row + pos.1 < 0 ∨ row + pos.1 ≥ sp.num_rows then
      searchOpenLoop sp row col rest
    else
      match sp.getCell (row + pos.1) ((col + pos.2) % sp.num_cols) with
      | .error e => .error e
      | .ok candidate_cell =>
        if ¬ candidate_cell.occupied then .ok (some candidate_cell)
        else searchOpenLoop sp row col rest

/-- `Symbiont._checkForOpenAdjacentCell` from `symbiont.py`:
`positions_shuffled` is the Moore list after the `RNG.shuffle` draw.  A
found open cell of a top- or bottom-row parent is reclassified as outside
the environment with probability 3/8 via `border_draw`. -/
def checkForOpenAdjacentCell (sp : Sponge) (s : Symbiont)
    (positions_shuffled : List (ℤ × ℤ)) (border_draw : ℚ) :
    Except PyError OpenCellResult :=
  match s.cell with
  | none => .error .attributeError  -- self._cell.getRowCol() on None
  | some c =>
    match searchOpenLoop sp c.row c.col positions_shuffled.reverse with
    | .error e => .error e
    | .ok none => .ok .noneFound
    | .ok (some open_cell) =>
      if c.row = 0 ∨ c.row = sp.num_rows - 1 then
        if border_draw < 3 / 8 then .ok .outside else .ok (.found open_cell)
      else .ok (.found open_cell)

/-- The draws `endOfG1SG2M` makes, in consumption order: the balance
recompute, the neighborhood shuffle, the border/eviction/affinity coins,
the division draws, and the parent's next-G0 draws. -/
structure EndG1RNG where
  rng1 : SurplusRNG
  positions : List (ℤ × ℤ)
  border_draw : ℚ
  eviction_draw : ℚ
  affinity_draw : ℚ
  copy : CopyRNG
  g0_time : ℚ
  rng2 : SurplusRNG

/-- The six-outcome mitosis resolution of `endOfG1SG2M` (the three
top-level branches on the neighbor-search result, each split by the
parent-eviction coin and, for a real open cell, gated by the division
affinity coin).  Returns the updated parent, the outcome, the child and
the updated grid. -/
def resolveMitosis (sp : Sponge) (s2 : Symbiont) (current_time : ℚ)
    (next_id : ℤ) (rng : EndG1RNG) (ocr : OpenCellResult) :
    Except PyError (Symbiont × SymbiontState × Symbiont × Sponge) :=
  match ocr with
  | .outside =>
    if rng.eviction_draw < s2.my_clade.parent_eviction_prob then
      -- child stays in current cell, parent infects outside
      match symbiontCopy s2 s2.cell current_time next_id sp.num_rows rng.copy with
      | .error e => .error e
      | .ok (child, parent1) =>
        match s2.cell with
        | none => .error .attributeError  -- unreachable: the search required a cell
        | some pc =>
          let pc' := pc.setSymbiont child.id current_time
          .ok ({ parent1 with cell := none },
               SymbiontState.PARENT_INFECTS_OUTSIDE, child,
               sp.setCellAt pc.row pc.col pc')
    else
      -- parent stays in current cell, child infects outside
      match symbiontCopy s2 none current_time next_id sp.num_rows rng.copy with
      | .error e => .error e
      | .ok (child, parent1) =>
        .ok (parent1, SymbiontState.CHILD_INFECTS_OUTSIDE, child, sp)
  | .found open_cell =>
    if rng.eviction_draw < s2.my_clade.parent_eviction_prob then
      -- child stays in current cell, parent tries to move to the open cell
      match symbiontCopy s2 s2.cell current_time next_id sp.num_rows rng.copy with
      | .error e => .error e
      | .ok (child, parent1) =>
        match s2.cell with
        | none => .error .attributeError
        | some pc =>
          let pc' := pc.setSymbiont child.id current_time
          let sp1 := sp.setCellAt pc.row pc.col pc'
          if determinePhagocytosis s2.my_clade false rng.affinity_draw then
            let oc' := open_cell.setSymbiont parent1.id current_time
            .ok ({ parent1 with
                   cell := some oc'
                   cells_inhabited := parent1.cells_inhabited ++ [(open_cell.row, open_cell.col)]
                   inhabit_times := parent1.inhabit_times ++ [current_time]
                   hcds_of_cells_inhabited :=
                     parent1.hcds_of_cells_inhabited ++ [open_cell.demand] },
                 SymbiontState.BOTH_STAY, child, sp1.setCellAt open_cell.row open_cell.col oc')
          else
            .ok ({ parent1 with cell := none },
                 SymbiontState.PARENT_NO_AFFINITY, child, sp1)
    else
      -- parent stays in current cell, child tries to move to the open cell
      if determinePhagocytosis s2.my_clade false rng.affinity_draw then
        match symbiontCopy s2 (some open_cell) current_time next_id sp.num_rows rng.copy with
        | .error e => .error e
        | .ok (child, parent1) =>
          let oc' := open_cell.setSymbiont child.id current_time
          .ok (parent1, SymbiontState.BOTH_STAY, child,
               sp.setCellAt open_cell.row open_cell.col oc')
      else
        match symbiontCopy s2 none current_time next_id sp.num_rows rng.copy with
        | .error e => .error e
        | .ok (child, parent1) =>
          .ok (parent1, SymbiontState.CHILD_NO_AFFINITY, child, sp)
  | .noneFound =>
    if rng.eviction_draw < s2.my_clade.parent_eviction_prob then
      -- child stays in current cell, parent evicted into pool
      match symbiontCopy s2 s2.cell current_time next_id sp.num_rows rng.copy with
      | .error e => .error e
      | .ok (child, parent1) =>
        match s2.cell with
        | none => .error .attributeError
        | some pc =>
          let pc' := pc.setSymbiont child.id current_time
          .ok ({ parent1 with cell := none },
               SymbiontState.PARENT_EVICTED, child,
               sp.setCellAt pc.row pc.col pc')
    else
      -- parent stays in current cell, child evicted into pool
      match symbiontCopy s2 none current_time next_id sp.num_rows rng.copy with
      | .error e => .error e
      | .ok (child, parent1) =>
        .ok (parent1, SymbiontState.CHILD_EVICTED, child, sp)

/-- The tail of `endOfG1SG2M`: except in the parent-evicted,
parent-infects-outside and parent-no-affinity outcomes, draw the parent's
next G0 length, project the balance through it, and either schedule the
next end-of-G0 or a digestion/escape replacing it. -/
def parentTail (parent2 : Symbiont) (status : SymbiontState)
    (current_time : ℚ) (rng : EndG1RNG) : Except PyError Symbiont :=
  if ¬ (status = SymbiontState.PARENT_EVICTED ∨
        status = SymbiontState.PARENT_INFECTS_OUTSIDE ∨
        status = SymbiontState.PARENT_NO_AFFINITY) then
    let time_of_end_of_g0 := current_time + rng.g0_time
    let parent3 := { parent2 with g0_times := parent2.g0_times ++ [rng.g0_time] }
    match computeSurplusAtEventEnd parent3 current_time time_of_end_of_g0
        (some SymbiontState.IN_G0) rng.rng2 with
    | .error e => .error e
    | .ok (surplus_at_end, time_of_digestion, time_of_exit) =>
      if surplus_at_end < 0 then
        let pa := { parent3 with time_of_digestion := optTime time_of_digestion }
        match time_of_exit with
        | some v => .ok { pa with time_of_escape := (v : Time) }
        | none => .ok pa
      else .ok { parent3 with time_of_next_end_g0 := (time_of_end_of_g0 : Time) }
  else .ok parent2

/-- `Symbiont.endOfG1SG2M` from `symbiont.py`: clear the end-of-G1SG2M
time, recompute the balance across the completed mitosis (asserting no
exit was computed), count the division, search the Moore neighborhood,
resolve the six mitosis outcomes, optionally schedule the parent's next
G0 period, and refresh the next-event selection.  Returns the updated
parent, the outcome status, the child, and the updated grid. -/
def endOfG1SG2M (sp : Sponge) (s : Symbiont) (current_time : ℚ)
    (next_id : ℤ) (rng : EndG1RNG) :
    Except PyError (Symbiont × SymbiontState × Symbiont × Sponge) :=
  let s0 := { s with time_of_next_end_g1sg2m := (⊤ : Time) }
  if ¬ (s0.prev_event_type = some EventType.END_G0) then .error .assertionError
  else
    match computeSurplusAtEventEnd s0 s0.prev_event_time current_time
        (some SymbiontState.IN_G1SG2M) rng.rng1 with
    | .error e => .error e
    | .ok (surplus_at_end, time_of_digestion, time_of_exit) =>
      if time_of_digestion ≠ none then .error .assertionError
      else if time_of_exit ≠ none then .error .assertionError
      else
        let s1 := { s0 with photosynthate_surplus := surplus_at_end }
        let s2 := { s1 with num_divisions := s1.num_divisions + 1 }
        match checkForOpenAdjacentCell sp s2 rng.positions rng.border_draw with
        | .error e => .error e
        | .ok ocr =>
          match resolveMitosis sp s2 current_time next_id rng ocr with
          | .error e => .error e
          | .ok (parent2, status, child, sponge2) =>
            match parentTail parent2 status current_time rng with
            | .error e => .error e
            | .ok parent4 =>
              .ok (setNextEvent { parent4 with
                                  prev_event_time := current_time
                                  prev_event_type := some EventType.END_G1SG2M },
                   status, child, sponge2)

/-- The three mitosis outcomes after which the parent no longer holds a
grid slot (the statuses `endOfG1SG2M` excludes from rescheduling). -/
def parentLosesSlot (status : SymbiontState) : Prop :=
  status = SymbiontState.PARENT_EVICTED ∨
  status = SymbiontState.PARENT_INFECTS_OUTSIDE ∨
  status = SymbiontState.PARENT_NO_AFFINITY

instance (status : SymbiontState) : Decidable (parentLosesSlot status) := by
  unfold parentLosesSlot
  infer_instance

/-- Division draws with no mutation at all. -/
def copyRng1 : CopyRNG :=
  { mcr_draw := { fuzzamt := 0, mutation := .NO_MUTATION },
    surplus_draw := { fuzzamt := 0, mutation := .NO_MUTATION },
    ppr_draw := { fuzzamt := 0, mutation := .NO_MUTATION },
    sched := { residence_time := 50, g0_time := 5, surplus_rng := rng0 } }

/-- An agent that survives its G0 but cannot afford the coming mitosis
(balance 10, demand 2, production 1). -/
def symbC : Symbiont := { symbA with photosynthate_surplus := 10, cell := some cellB }

/-- Draws for an `endOfG0` call with a G1SG2M length of 2. -/
def rngC : EndG0RNG := { rng1 := rng0, g1sg2m_time := 2, rng2 := rng0 }

/-- An everywhere-occupied host cell. -/
def occCell (r c : ℤ) : Cell :=
  { row := r, col := c, demand := 1, occupied := true, symbiont := some 99,
    last_occupied_time := (0 : ℚ), sum_residence_time := 0, num_occupants := 1 }

/-- A fully occupied 3-by-3 sponge: no open neighbor anywhere. -/
def spongeFull : Sponge := { num_rows := 3, num_cols := 3, cells := occCell }

/-- A mid-grid parent finishing its G1SG2M at time 12. -/
def symbD : Symbiont :=
  { symbA with
    cell := some (occCell 1 1)
    photosynthate_surplus := 4
    prev_event_time := 10
    prev_event_type := some .END_G0
    time_of_next_end_g0 := ⊤
    time_of_next_end_g1sg2m := (12 : ℚ)
    next_event_time := (12 : ℚ)
    next_event_type := some .END_G1SG2M }

/-- Draws for an `endOfG1SG2M` call whose eviction coin evicts the parent. -/
def rngE : EndG1RNG :=
  { rng1 := rng0
    positions := moorePositions
    border_draw := 1
    eviction_draw := 0
    affinity_draw := 1
    copy := copyRng1
    g0_time := 5
    rng2 := rng0 }

/-- Draws for a pool-arrival construction. -/
def initRng0 : InitRNG :=
  { mcr_draw := 0, ppr_draw := 1, surplus_draws := [5],
    sched := { residence_time := 100, g0_time := 10, surplus_rng := rng0 } }

/-- `Symbiont.digestion` from `symbiont.py`: pin the banked photosynthate
to 0, then remove the symbiont from its host cell. -/
def digestion (s : Symbiont) (current_time : ℚ) : Except PyError Symbiont :=
  let s1 := { s with photosynthate_surplus := 0 }
  match s1.cell with
  | none => .error .attributeError
  | some c =>
    match c.removeSymbiont current_time with
    | .error e => .error e
    | .ok c' => .ok { s1 with cell := some c' }

/-- `Symbiont.escape` from `symbiont.py`: pin the banked photosynthate to
0, then remove the symbiont from its host cell. -/
def escape (s : Symbiont) (current_time : ℚ) : Except PyError Symbiont :=
  let s1 := { s with photosynthate_surplus := 0 }
  match s1.cell with
  | none => .error .attributeError
  | some c =>
    match c.removeSymbiont current_time with
    | .error e => .error e
    | .ok c' => .ok { s1 with cell := some c' }

/-- The `while prob >= cum[clade]: clade += 1` clade-selection loop of
`generateArrival`: return the first index whose cumulative proportion
strictly exceeds the draw; running past the end of the array is Python's
`IndexError`. -/
def chooseCladeLoop (prob : ℚ) : List ℚ → ℕ → Except PyError ℕ
  | [], _ => .error .indexError
  | c :: rest, i => if prob < c then .ok i else chooseCladeLoop prob rest (i + 1)

/-- Clade selection over the cumulative proportions, starting at index 0. -/
def chooseClade (cumulative : List ℚ) (prob : ℚ) : Except PyError ℕ :=
  chooseCladeLoop prob cumulative 0

/-- The row-major list of open cells built by `Symbiont.findOpenCell`
(every scanned coordinate is in range, so the `getCell` lookups are plain
grid reads here). -/
def openCellsList (sp : Sponge) : List Cell :=
  (List.range sp.num_rows.toNat).flatMap (fun r =>
    (List.range sp.num_cols.toNat).filterMap (fun c =>
      let cell := sp.cells r c
      if cell.occupied then none else some cell))

/-- `Symbiont.findOpenCell` from `symbiont.py`: assert at least one open
cell, then pick one at random.  `pick` models the
`RNG.randint(0, len-1, Stream.OPEN_CELL_ON_ARRIVAL)` draw; it is reduced
modulo the list length so that every oracle value denotes an admissible
in-range draw. -/
def findOpenCell (sp : Sponge) (pick : ℕ) : Except PyError Cell :=
  let open_cells := openCellsList sp
  if open_cells.length = 0 then .error .assertionError
  else
    match open_cells.get? (pick % open_cells.length) with
    | some c => .ok c
    | none => .error .indexError

/-- The draws `generateArrival` makes: the clade-proportion draw, the
arrival-affinity draw, the open-cell pick, and the construction draws. -/
structure ArrivalRNG where
  clade_draw : ℚ
  affinity_draw : ℚ
  open_cell_pick : ℕ
  init : InitRNG

/-- `Symbiont.generateArrival` from `symbiont.py`: drop the arrival when
the grid is at capacity; otherwise select a clade from the cumulative
proportions, flip the arrival-affinity coin, and only on success find an
open cell, construct the symbiont and place it there.  `cumulative`
models the class-level `clade_cumulative_proportions` array. -/
def generateArrival (clades : List Clade) (cumulative : List ℚ) (sp : Sponge)
    (current_time : ℚ) (num_symbionts : ℤ) (next_id : ℤ) (rng : ArrivalRNG) :
    Except PyError (Option Symbiont × Sponge) :=
  if num_symbionts = sp.num_rows * sp.num_cols then .ok (none, sp)
  else
    match chooseClade cumulative rng.clade_draw with
    | .error e => .error e
    | .ok clade =>
      match clades.get? clade with  -- Clade.getClade(clade)
      | none => .error .indexError
      | some this_clade =>
        if determinePhagocytosis this_clade true rng.affinity_draw then
          match findOpenCell sp rng.open_cell_pick with
          | .error e => .error e
          | .ok open_cell =>
            match Symbiont.init clades sp.num_rows (clade : ℤ) open_cell
                current_time next_id rng.init with
            | .error e => .error e
            | .ok symbiont =>
              let oc' := open_cell.setSymbiont symbiont.id current_time
              .ok (some symbiont, sp.setCellAt open_cell.row open_cell.col oc')
        else
          .ok (none, sp)

/-- An open host cell at the origin. -/
def openCell00 : Cell :=
  { row := 0, col := 0, demand := 1, occupied := false, symbiont := none,
    last_occupied_time := ⊤, sum_residence_time := 0, num_occupants := 0 }

/-- A 2-by-1 sponge whose cells are all open. -/
def spongeOpen : Sponge := { num_rows := 2, num_cols := 1, cells := fun _ _ => openCell00 }

/-- Concrete arrival draws: clade draw 0, affinity draw 0 (succeeds
against probability 1/2), first open cell. -/
def arrivalRng0 : ArrivalRNG :=
  { clade_draw := 0, affinity_draw := 0, open_cell_pick := 0, init := initRng0 }

/-- claim C1 -- The claim asserts that repeated extraction after any sequence
of `insertEvent` calls yields events in non-decreasing
(time, kind-priority, sequence) order.  On the code this fails before any
extraction happens: inserting two events with equal times and different
kinds already raises `TypeError`, because `Event.__lt__` compares plain
`enum.Enum` members with `<`.  Concretely, inserting a DIGESTION event at
time 1 and then an ESCAPE event at time 1 makes `insertEvent` raise instead
of ordering the ESCAPE first as the documented kind priority requires. -/
theorem eventList_equal_time_insert_raises_typeError :
    (match EventList.empty.insertEvent { time := 1, etype := .DIGESTION, event_num := 0 } with
      | .error e => Except.error e
      | .ok l => l.insertEvent { time := 1, etype := .ESCAPE, event_num := 1 }) =
      (Except.error PyError.typeError : Except PyError EventList) := by
  rw [show EventList.empty.insertEvent { time := 1, etype := .DIGESTION, event_num := 0 } =
      .ok { heap := [{ time := 1, etype := .DIGESTION, event_num := 0 }] } from by
    simp [EventList.empty, EventList.insertEvent, heappush, siftdown]]
  simp [EventList.insertEvent, heappush, siftdown, eventLt]

lemma computeSurplus_nonneg (s : Symbiont) (c : Cell) (t1 t2 : ℚ)
    (state : Option SymbiontState) (rng : SurplusRNG) (hc : s.cell = some c)
    (h0 : 0 ≤ surplusProjection s c t1 t2 state) :
    computeSurplusAtEventEnd s t1 t2 state rng =
      .ok (surplusProjection s c t1 t2 state, none, none) := by
  unfold surplusProjection at h0 ⊢
  simp only [computeSurplusAtEventEnd, hc]
  rw [if_neg (not_lt.2 h0)]

lemma computeSurplus_neg_g0 (s : Symbiont) (c : Cell) (t1 t2 : ℚ)
    (rng : SurplusRNG) (hc : s.cell = some c)
    (h0 : surplusProjection s c t1 t2 (some SymbiontState.IN_G0) < 0)
    (ht : t1 < t2) :
    computeSurplusAtEventEnd s t1 t2 (some SymbiontState.IN_G0) rng =
      .ok (surplusProjection s c t1 t2 (some SymbiontState.IN_G0),
           some (crossingTime s c t1 t2 (some SymbiontState.IN_G0)),
           if rng.coin < s.my_clade.g0_escape_prob then
             some (rng.escapeDraw t1 (crossingTime s c t1 t2 (some SymbiontState.IN_G0)))
           else none) := by
  unfold crossingTime
  unfold surplusProjection at h0 ⊢
  simp only [computeSurplusAtEventEnd, hc]
  rw [if_pos h0]
  rw [if_neg (by simp [sub_pos, ht])]
  simp

lemma computeSurplus_neg_g1sg2m (s : Symbiont) (c : Cell) (t1 t2 : ℚ)
    (rng : SurplusRNG) (hc : s.cell = some c)
    (h0 : surplusProjection s c t1 t2 (some SymbiontState.IN_G1SG2M) < 0)
    (ht : t1 < t2) :
    computeSurplusAtEventEnd s t1 t2 (some SymbiontState.IN_G1SG2M) rng =
      .ok (surplusProjection s c t1 t2 (some SymbiontState.IN_G1SG2M),
           some (crossingTime s c t1 t2 (some SymbiontState.IN_G1SG2M)),
           if rng.coin < s.my_clade.g1sg2m_escape_prob then
             some (rng.escapeDraw t1 (crossingTime s c t1 t2 (some SymbiontState.IN_G1SG2M)))
           else none) := by
  unfold crossingTime
  unfold surplusProjection at h0 ⊢
  simp only [computeSurplusAtEventEnd, hc]
  simp only [reduceIte] at h0 ⊢
  rw [if_pos h0]
  rw [if_neg (by simp [sub_pos, ht])]
  simp

lemma computeSurplus_neg_badstate (s : Symbiont) (c : Cell) (t1 t2 : ℚ)
    (state : Option SymbiontState) (rng : SurplusRNG) (hc : s.cell = some c)
    (h0 : surplusProjection s c t1 t2 state < 0) (ht : t1 < t2)
    (hs1 : state ≠ some SymbiontState.IN_G0)
    (hs2 : state ≠ some SymbiontState.IN_G1SG2M) :
    computeSurplusAtEventEnd s t1 t2 state rng = .error .assertionError := by
  unfold surplusProjection at h0
  simp only [computeSurplusAtEventEnd, hc]
  rw [if_pos h0]
  rw [if_neg (by simp [sub_pos, ht])]
  simp [hs1, hs2]

lemma computeSurplus_ok_first (s : Symbiont) (c : Cell) (t1 t2 : ℚ)
    (state : Option SymbiontState) (rng : SurplusRNG) (hc : s.cell = some c)
    (se : ℚ) (td tee : Option ℚ)
    (h : computeSurplusAtEventEnd s t1 t2 state rng = .ok (se, td, tee)) :
    se = surplusProjection s c t1 t2 state := by
  rcases le_or_lt 0 (surplusProjection s c t1 t2 state) with h0 | h0
  · rw [computeSurplus_nonneg s c t1 t2 state rng hc h0] at h
    injection h with h'
    rw [Prod.mk.injEq] at h'
    exact h'.1.symm
  · rcases le_or_lt t2 t1 with ht | ht
    · -- negative projection with nonpositive time span raises
      have : computeSurplusAtEventEnd s t1 t2 state rng = .error .assertionError := by
        unfold surplusProjection at h0
        simp only [computeSurplusAtEventEnd, hc]
        rw [if_pos h0]
        rw [if_pos (by simp [sub_pos]; linarith)]
      rw [this] at h
      exact Except.noConfusion h
    · by_cases hs1 : state = some SymbiontState.IN_G0
      · subst hs1
        rw [computeSurplus_neg_g0 s c t1 t2 rng hc h0 ht] at h
        injection h with h'
        rw [Prod.mk.injEq] at h'
        exact h'.1.symm
      · by_cases hs2 : state = some SymbiontState.IN_G1SG2M
        · subst hs2
          rw [computeSurplus_neg_g1sg2m s c t1 t2 rng hc h0 ht] at h
          injection h with h'
          rw [Prod.mk.injEq] at h'
          exact h'.1.symm
        · rw [computeSurplus_neg_badstate s c t1 t2 state rng hc h0 ht hs1 hs2] at h
          exact Except.noConfusion h

lemma crossing_props (t1 t2 P S : ℚ) (hP : 0 < P) (hS : S < 0) (ht : t1 < t2) :
    P + ((t1 - P / ((S - P) / (t2 - t1))) - t1) * ((S - P) / (t2 - t1)) = 0 ∧
    t1 < t1 - P / ((S - P) / (t2 - t1)) ∧
    t1 - P / ((S - P) / (t2 - t1)) < t2 := by
  have hD : 0 < t2 - t1 := by linarith
  have hSP : S - P < 0 := by linarith
  have hm : (S - P) / (t2 - t1) < 0 := div_neg_of_neg_of_pos hSP hD
  have hm0 : (S - P) / (t2 - t1) ≠ 0 := ne_of_lt hm
  have hq : P / ((S - P) / (t2 - t1)) = P * (t2 - t1) / (S - P) :=
    div_div_eq_mul_div P (S - P) (t2 - t1)
  have hqmul : (P * (t2 - t1) / (S - P)) * (S - P) = P * (t2 - t1) :=
    div_mul_cancel₀ _ (ne_of_lt hSP)
  have hqneg : P * (t2 - t1) / (S - P) < 0 :=
    div_neg_of_pos_of_neg (mul_pos hP hD) hSP
  refine ⟨?_, ?_, ?_⟩
  · have key : (t1 - P / ((S - P) / (t2 - t1))) - t1 = -(P / ((S - P) / (t2 - t1))) := by
      ring
    rw [key, neg_mul, div_mul_cancel₀ _ hm0]
    ring
  · rw [hq]; linarith
  · rw [hq]
    nlinarith [hqmul, hqneg]

/-- claim C3 -- Every successful `_computeSurplusAtEventEnd` call returns as
its first component exactly
`balance + (next_time - this_time) * (production - demand - cost)`, where
`cost` is the mitotic cost rate exactly when the state is `IN_G1SG2M` and 0
for every other state; and the §8 break-even agent (production rate 1, slot
demand 1, zero mitotic cost, balance 5, phase-A span 10) projects an
end-of-phase-A balance of exactly 5 with no digestion and no escape output,
whatever the variate draws. -/
theorem computeSurplus_returns_linear_formula :
    (∀ (s : Symbiont) (c : Cell) (t1 t2 : ℚ) (state : Option SymbiontState)
        (rng : SurplusRNG) (se : ℚ) (td tee : Option ℚ),
        s.cell = some c →
        computeSurplusAtEventEnd s t1 t2 state rng = .ok (se, td, tee) →
        se = s.photosynthate_surplus + (t2 - t1) *
          (s.production_rate - c.demand -
            (if state = some SymbiontState.IN_G1SG2M then s.mitotic_cost_rate else 0))) ∧
    (∀ rng : SurplusRNG,
        computeSurplusAtEventEnd symbA 0 10 (some SymbiontState.IN_G0) rng =
          .ok (5, none, none)) := by
  constructor
  · intro s c t1 t2 state rng se td tee hc h
    rw [computeSurplus_ok_first s c t1 t2 state rng hc se td tee h]
    unfold surplusProjection
    split_ifs <;> ring
  · intro rng
    have h := computeSurplus_nonneg symbA cellA 0 10 (some SymbiontState.IN_G0) rng
      rfl (by norm_num [surplusProjection, symbA, cellA])
    rw [h]
    norm_num [surplusProjection, symbA, cellA]

/-- claim C3 witness: the universal part applied to the §8 break-even agent,
its hypotheses discharged at that concrete input. -/
theorem computeSurplus_returns_linear_formula_witness :
    (5 : ℚ) = symbA.photosynthate_surplus + (10 - 0) *
      (symbA.production_rate - cellA.demand -
        (if (some SymbiontState.IN_G0) = some SymbiontState.IN_G1SG2M then
          symbA.mitotic_cost_rate else 0)) :=
  computeSurplus_returns_linear_formula.1 symbA cellA 0 10
    (some SymbiontState.IN_G0) rng0 5 none none rfl
    (computeSurplus_returns_linear_formula.2 rng0)

/-- claim C4 -- For every projection call with `next_time > this_time` and a
positive current balance: if the projected balance is non-negative both
optional outputs are absent; if it is negative a digestion time is always
returned (for the states the code admits there), it solves
`balance(t_d) = 0` exactly on the linear trajectory through
(this_time, balance) and (next_time, projected balance), and it lies
strictly between `this_time` and `next_time`. -/
theorem computeSurplus_crossing_exact (s : Symbiont) (c : Cell) (t1 t2 : ℚ)
    (state : Option SymbiontState) (rng : SurplusRNG)
    (hc : s.cell = some c) (ht : t1 < t2) (hP : 0 < s.photosynthate_surplus) :
    (0 ≤ surplusProjection s c t1 t2 state →
      computeSurplusAtEventEnd s t1 t2 state rng =
        .ok (surplusProjection s c t1 t2 state, none, none)) ∧
    (surplusProjection s c t1 t2 state < 0 →
      (state = some SymbiontState.IN_G0 ∨ state = some SymbiontState.IN_G1SG2M) →
      ∃ td tee, computeSurplusAtEventEnd s t1 t2 state rng =
          .ok (surplusProjection s c t1 t2 state, some td, tee) ∧
        s.photosynthate_surplus + (td - t1) *
          ((surplusProjection s c t1 t2 state - s.photosynthate_surplus) / (t2 - t1)) = 0 ∧
        t1 < td ∧ td < t2) := by
  constructor
  · intro h0
    exact computeSurplus_nonneg s c t1 t2 state rng hc h0
  · intro hneg hstate
    have hprops := crossing_props t1 t2 s.photosynthate_surplus
      (surplusProjection s c t1 t2 state) hP hneg ht
    rcases hstate with hg | hg <;> subst hg
    · exact ⟨crossingTime s c t1 t2 (some SymbiontState.IN_G0), _,
        computeSurplus_neg_g0 s c t1 t2 rng hc hneg ht,
        hprops.1, hprops.2.1, hprops.2.2⟩
    · exact ⟨crossingTime s c t1 t2 (some SymbiontState.IN_G1SG2M), _,
        computeSurplus_neg_g1sg2m s c t1 t2 rng hc hneg ht,
        hprops.1, hprops.2.1, hprops.2.2⟩

/-- claim C4 witness: the theorem applied to the §8 under-producing agent
(balance 5, net rate -1 over a span of 10), all hypotheses discharged
there; the projected balance is -5 and the crossing time lies strictly
inside (0, 10). -/
theorem computeSurplus_crossing_exact_witness :
    (∃ td tee, computeSurplusAtEventEnd symbB 0 10 (some SymbiontState.IN_G0) rng0 =
        .ok (surplusProjection symbB cellB 0 10 (some SymbiontState.IN_G0), some td, tee) ∧
      symbB.photosynthate_surplus + (td - 0) *
        ((surplusProjection symbB cellB 0 10 (some SymbiontState.IN_G0) -
          symbB.photosynthate_surplus) / (10 - 0)) = 0 ∧
      (0 : ℚ) < td ∧ td < 10) ∧
    crossingTime symbB cellB 0 10 (some SymbiontState.IN_G0) = 5 :=
  ⟨(computeSurplus_crossing_exact symbB cellB 0 10 (some SymbiontState.IN_G0) rng0
      rfl (by norm_num) (by norm_num [symbB, symbA])).2
    (by norm_num [surplusProjection, symbB, symbA, cellB, cellA])
    (Or.inl rfl),
   by norm_num [crossingTime, surplusProjection, symbB, symbA, cellB, cellA]⟩

/-- claim C2 counterexample -- an escape candidate and an end-of-phase-A
candidate both at time 5: `_setNextEvent` selects END_G0, while the
calendar's kind priority dispatches ESCAPE first (value 0 < value 2), so
the two orders disagree. -/
theorem setNextEvent_disagrees_with_calendar :
    (setNextEvent (pairState .ESCAPE .END_G0 5)).next_event_type =
        some EventType.END_G0 ∧
      calendarFirst .ESCAPE .END_G0 = EventType.ESCAPE ∧
      EventType.END_G0 ≠ EventType.ESCAPE := by
  refine ⟨?_, by norm_num [calendarFirst, EventType.value], by decide⟩
  simp [setNextEvent, pairState, candTime, symbA, lt_irrefl, not_top_lt]

/-- claim C2 (amended) -- For two distinct candidate kinds held at equal
times, `_setNextEvent` selects the same kind the calendar kind priority
would dispatch first if and only if the pair is not an escape/digestion
kind against a phase-end kind; on those cross pairs `_setNextEvent`
prefers the phase end while the calendar order prefers the
escape/digestion. -/
theorem setNextEvent_vs_calendar_characterized (t : ℚ) (k1 k2 : EventType)
    (h1 : schedulableKind k1) (h2 : schedulableKind k2) (hne : k1 ≠ k2) :
    (setNextEvent (pairState k1 k2 t)).next_event_type =
        some (calendarFirst k1 k2) ↔ ¬ crossPair k1 k2 := by
  rcases h1 with rfl | rfl | rfl | rfl | rfl <;>
    rcases h2 with rfl | rfl | rfl | rfl | rfl <;>
      simp_all [setNextEvent, pairState, candTime, calendarFirst,
        EventType.value, crossPair, lt_irrefl, not_top_lt]

/-- claim C2 (amended) witness: ESCAPE versus DIGESTION at time 3 — a
non-cross pair, on which `_setNextEvent` and the calendar order agree. -/
theorem setNextEvent_vs_calendar_characterized_witness :
    (setNextEvent (pairState .ESCAPE .DIGESTION 3)).next_event_type =
      some (calendarFirst .ESCAPE .DIGESTION) :=
  (setNextEvent_vs_calendar_characterized 3 .ESCAPE .DIGESTION
      (Or.inl rfl) (Or.inr (Or.inl rfl)) (by decide)).2
    (by simp [crossPair])

/-- claim C5 -- Immediately after every successful `_SymbiontCopy`, the
child's and parent's photosynthate surpluses sum to exactly the parent's
surplus just before the division: the mutation draw only shifts the split,
so the sum differs from the pre-division balance by 0, which is within the
explicit mutation amount of every draw. -/
theorem symbiontCopy_conserves_surplus (s : Symbiont) (cell : Option Cell)
    (current_time : ℚ) (next_id num_rows : ℤ) (rng : CopyRNG)
    (child parent' : Symbiont)
    (h : symbiontCopy s cell current_time next_id num_rows rng = .ok (child, parent')) :
    child.photosynthate_surplus + parent'.photosynthate_surplus =
      s.photosynthate_surplus ∧
    |child.photosynthate_surplus + parent'.photosynthate_surplus -
      s.photosynthate_surplus| ≤ |rng.surplus_draw.fuzzamt| := by
  have main : child.photosynthate_surplus + parent'.photosynthate_surplus =
      s.photosynthate_surplus := by
    have hsch : ∀ (x : Symbiont) (t : ℚ) (r : ScheduleRNG) (y : Symbiont),
        scheduleInitialEvents x t r = .ok y →
        y.photosynthate_surplus = x.photosynthate_surplus := by
      intro x t r y hy
      unfold scheduleInitialEvents at hy
      dsimp only at hy
      split at hy
      · exact Except.noConfusion hy
      · split at hy
        · split at hy <;> (injection hy with h'; subst h'; rfl)
        · injection hy with h'
          subst h'
          rfl
    rcases hmut : rng.surplus_draw.mutation <;>
      rcases hmcr : rng.mcr_draw.mutation <;>
        (unfold symbiontCopy at h
         simp only [hmut, hmcr] at h
         split at h
         next =>
           injection h with h'
           rw [Prod.mk.injEq] at h'
           rcases h' with ⟨h1, h2⟩
           subst h1
           subst h2
           simp only
           ring
         next c =>
           split at h
           next => exact Except.noConfusion h
           next rate hrate =>
             split at h
             next => exact Except.noConfusion h
             next ns4 hns4 =>
               injection h with h'
               rw [Prod.mk.injEq] at h'
               rcases h' with ⟨h1, h2⟩
               subst h1
               subst h2
               have hkeep := hsch _ _ _ _ hns4
               simp only [setNextEvent, hkeep]
               ring)
  exact ⟨main, by rw [main]; simp⟩

/-- claim C5 witness: the conservation theorem applied to a concrete
division of the balance-5 agent under a deleterious split mutation — the
child and parent surpluses still sum to exactly 5. -/
theorem symbiontCopy_conserves_surplus_witness :
    (symbiontCopy symbA none 0 1 3 copyRng0).map
        (fun p => p.1.photosynthate_surplus + p.2.photosynthate_surplus) =
      .ok symbA.photosynthate_surplus := by
  rcases hres : symbiontCopy symbA none 0 1 3 copyRng0 with e | ⟨c, p⟩
  · exact Except.noConfusion hres
  · have hcons := (symbiontCopy_conserves_surplus symbA none 0 1 3 copyRng0 c p hres).1
    simp [Except.map, hcons]

lemma symbiontCopy_parent_eq (s : Symbiont) (cell : Option Cell)
    (current_time : ℚ) (next_id num_rows : ℤ) (rng : CopyRNG)
    (child parent1 : Symbiont)
    (h : symbiontCopy s cell current_time next_id num_rows rng = .ok (child, parent1)) :
    parent1 = { s with photosynthate_surplus := parent1.photosynthate_surplus } := by
  unfold symbiontCopy at h
  dsimp only at h
  split at h
  next =>
    injection h with h'
    rw [Prod.mk.injEq] at h'
    rcases h' with ⟨h1, h2⟩
    subst h2
    rfl
  next c =>
    split at h
    next => exact Except.noConfusion h
    next rate hrate =>
      split at h
      next => exact Except.noConfusion h
      next ns4 hns4 =>
        injection h with h'
        rw [Prod.mk.injEq] at h'
        rcases h' with ⟨h1, h2⟩
        subst h2
        rfl

lemma scheduleInitialEvents_fields (x : Symbiont) (t : ℚ) (r : ScheduleRNG)
    (y : Symbiont) (h : scheduleInitialEvents x t r = .ok y) :
    y.time_of_next_end_g0 = ((t + r.g0_time : ℚ) : Time) ∧
    y.time_of_next_end_g1sg2m = x.time_of_next_end_g1sg2m := by
  unfold scheduleInitialEvents at h
  dsimp only at h
  split at h
  · exact Except.noConfusion h
  · split at h
    · split at h <;> (injection h with h'; subst h'; exact ⟨rfl, rfl⟩)
    · injection h with h'
      subst h'
      exact ⟨rfl, rfl⟩

lemma endOfG0_clears_g0 (s : Symbiont) (t : ℚ) (rng : EndG0RNG) (s' : Symbiont)
    (h : endOfG0 s t rng = .ok s') : s'.time_of_next_end_g0 = ⊤ := by
  unfold endOfG0 at h
  dsimp only at h
  split at h
  · exact Except.noConfusion h
  · split at h
    · exact Except.noConfusion h
    · split at h
      · exact Except.noConfusion h
      · split at h
        · exact Except.noConfusion h
        · split at h
          · exact Except.noConfusion h
          · injection h with h'
            subst h'
            split
            · split <;> rfl
            · rfl

lemma resolveMitosis_parent (sp : Sponge) (s2 : Symbiont) (t : ℚ) (next_id : ℤ)
    (rng : EndG1RNG) (ocr : OpenCellResult)
    (p2 : Symbiont) (status : SymbiontState) (child : Symbiont) (sp2 : Sponge)
    (h : resolveMitosis sp s2 t next_id rng ocr = .ok (p2, status, child, sp2)) :
    p2.time_of_next_end_g0 = s2.time_of_next_end_g0 ∧
    p2.time_of_next_end_g1sg2m = s2.time_of_next_end_g1sg2m ∧
    p2.time_of_escape = s2.time_of_escape ∧
    p2.time_of_digestion = s2.time_of_digestion ∧
    p2.time_of_denouement = s2.time_of_denouement ∧
    (parentLosesSlot status → p2.cell = none) ∧
    (¬ parentLosesSlot status → s2.cell ≠ none → p2.cell ≠ none) := by
  unfold resolveMitosis at h
  cases ocr <;> dsimp only at h
  case noneFound =>
    split at h
    · split at h
      · exact Except.noConfusion h
      · rename_i child1 parent1 hcopy
        split at h
        · exact Except.noConfusion h
        · rename_i pc hcell
          injection h with h'
          simp only [Prod.mk.injEq] at h'
          obtain ⟨h1, h2, h3, h4⟩ := h'
          subst h1
          subst h2
          have hpar := symbiontCopy_parent_eq _ _ _ _ _ _ _ _ hcopy
          exact ⟨by rw [hpar], by rw [hpar], by rw [hpar], by rw [hpar], by rw [hpar],
            fun _ => rfl, fun hn _ => absurd (Or.inl rfl) hn⟩
    · split at h
      · exact Except.noConfusion h
      · rename_i child1 parent1 hcopy
        injection h with h'
        simp only [Prod.mk.injEq] at h'
        obtain ⟨h1, h2, h3, h4⟩ := h'
        subst h1
        subst h2
        have hpar := symbiontCopy_parent_eq _ _ _ _ _ _ _ _ hcopy
        refine ⟨by rw [hpar], by rw [hpar], by rw [hpar], by rw [hpar], by rw [hpar],
          fun hsk => absurd hsk (by decide), ?_⟩
        intro _ hne
        rw [show parent1.cell = s2.cell from by rw [hpar]]
        exact hne
  case outside =>
    split at h
    · split at h
      · exact Except.noConfusion h
      · rename_i child1 parent1 hcopy
        split at h
        · exact Except.noConfusion h
        · rename_i pc hcell
          injection h with h'
          simp only [Prod.mk.injEq] at h'
          obtain ⟨h1, h2, h3, h4⟩ := h'
          subst h1
          subst h2
          have hpar := symbiontCopy_parent_eq _ _ _ _ _ _ _ _ hcopy
          exact ⟨by rw [hpar], by rw [hpar], by rw [hpar], by rw [hpar], by rw [hpar],
            fun _ => rfl, fun hn _ => absurd (Or.inr (Or.inl rfl)) hn⟩
    · split at h
      · exact Except.noConfusion h
      · rename_i child1 parent1 hcopy
        injection h with h'
        simp only [Prod.mk.injEq] at h'
        obtain ⟨h1, h2, h3, h4⟩ := h'
        subst h1
        subst h2
        have hpar := symbiontCopy_parent_eq _ _ _ _ _ _ _ _ hcopy
        refine ⟨by rw [hpar], by rw [hpar], by rw [hpar], by rw [hpar], by rw [hpar],
          fun hsk => absurd hsk (by decide), ?_⟩
        intro _ hne
        rw [show parent1.cell = s2.cell from by rw [hpar]]
        exact hne
  case found oc =>
    split at h
    · split at h
      · exact Except.noConfusion h
      · rename_i child1 parent1 hcopy
        split at h
        · exact Except.noConfusion h
        · rename_i pc hcell
          split at h
          · injection h with h'
            simp only [Prod.mk.injEq] at h'
            obtain ⟨h1, h2, h3, h4⟩ := h'
            subst h1
            subst h2
            have hpar := symbiontCopy_parent_eq _ _ _ _ _ _ _ _ hcopy
            exact ⟨by rw [hpar], by rw [hpar], by rw [hpar], by rw [hpar], by rw [hpar],
              fun hsk => absurd hsk (by decide), fun _ _ => by simp⟩
          · injection h with h'
            simp only [Prod.mk.injEq] at h'
            obtain ⟨h1, h2, h3, h4⟩ := h'
            subst h1
            subst h2
            have hpar := symbiontCopy_parent_eq _ _ _ _ _ _ _ _ hcopy
            exact ⟨by rw [hpar], by rw [hpar], by rw [hpar], by rw [hpar], by rw [hpar],
              fun _ => rfl, fun hn _ => absurd (Or.inr (Or.inr rfl)) hn⟩
    · split at h
      · split at h
        · exact Except.noConfusion h
        · rename_i child1 parent1 hcopy
          injection h with h'
          simp only [Prod.mk.injEq] at h'
          obtain ⟨h1, h2, h3, h4⟩ := h'
          subst h1
          subst h2
          have hpar := symbiontCopy_parent_eq _ _ _ _ _ _ _ _ hcopy
          refine ⟨by rw [hpar], by rw [hpar], by rw [hpar], by rw [hpar], by rw [hpar],
            fun hsk => absurd hsk (by decide), ?_⟩
          intro _ hne
          rw [show parent1.cell = s2.cell from by rw [hpar]]
          exact hne
      · split at h
        · exact Except.noConfusion h
        · rename_i child1 parent1 hcopy
          injection h with h'
          simp only [Prod.mk.injEq] at h'
          obtain ⟨h1, h2, h3, h4⟩ := h'
          subst h1
          subst h2
          have hpar := symbiontCopy_parent_eq _ _ _ _ _ _ _ _ hcopy
          refine ⟨by rw [hpar], by rw [hpar], by rw [hpar], by rw [hpar], by rw [hpar],
            fun hsk => absurd hsk (by decide), ?_⟩
          intro _ hne
          rw [show parent1.cell = s2.cell from by rw [hpar]]
          exact hne

lemma parentTail_fields (p2 : Symbiont) (status : SymbiontState) (t : ℚ)
    (rng : EndG1RNG) (p4 : Symbiont)
    (h : parentTail p2 status t rng = .ok p4) :
    p4.time_of_next_end_g1sg2m = p2.time_of_next_end_g1sg2m ∧
    p4.cell = p2.cell ∧
    p4.time_of_denouement = p2.time_of_denouement ∧
    (parentLosesSlot status → p4 = p2) := by
  unfold parentTail at h
  dsimp only at h
  split at h
  · rename_i hrun
    split at h
    · exact Except.noConfusion h
    · split at h
      · split at h <;>
          (injection h with h'
           subst h'
           exact ⟨rfl, rfl, rfl, fun hsk => absurd hsk hrun⟩)
      · injection h with h'
        subst h'
        exact ⟨rfl, rfl, rfl, fun hsk => absurd hsk hrun⟩
  · injection h with h'
    subst h'
    exact ⟨rfl, rfl, rfl, fun _ => rfl⟩

lemma checkForOpen_ok_cell (sp : Sponge) (s : Symbiont)
    (ps : List (ℤ × ℤ)) (d : ℚ) (r : OpenCellResult)
    (h : checkForOpenAdjacentCell sp s ps d = .ok r) : s.cell ≠ none := by
  intro hc
  unfold checkForOpenAdjacentCell at h
  rw [hc] at h
  exact Except.noConfusion h

lemma setNextEvent_next_of_denouement (x : Symbiont)
    (h1 : x.time_of_next_end_g0 = ⊤) (h2 : x.time_of_next_end_g1sg2m = ⊤)
    (h3 : x.time_of_escape = ⊤) (h4 : x.time_of_digestion = ⊤) :
    (setNextEvent x).next_event_time = x.time_of_denouement := by
  unfold setNextEvent
  dsimp only
  rw [h1, h2, h3, h4]
  simp only [lt_self_iff_false, if_false]
  rcases eq_or_ne x.time_of_denouement ⊤ with hd | hd
  · simp [hd]
  · simp [lt_top_iff_ne_top.2 hd]

lemma endOfG1SG2M_inv (sp : Sponge) (s : Symbiont) (t : ℚ) (next_id : ℤ)
    (rng : EndG1RNG) (p' : Symbiont) (status : SymbiontState)
    (child : Symbiont) (sp' : Sponge)
    (h : endOfG1SG2M sp s t next_id rng = .ok (p', status, child, sp')) :
    ∃ parent2 parent4 : Symbiont,
      (parentLosesSlot status → parent4 = parent2) ∧
      parent4.time_of_next_end_g1sg2m = parent2.time_of_next_end_g1sg2m ∧
      parent4.cell = parent2.cell ∧
      parent4.time_of_denouement = parent2.time_of_denouement ∧
      parent2.time_of_next_end_g0 = s.time_of_next_end_g0 ∧
      parent2.time_of_next_end_g1sg2m = ⊤ ∧
      parent2.time_of_escape = s.time_of_escape ∧
      parent2.time_of_digestion = s.time_of_digestion ∧
      parent2.time_of_denouement = s.time_of_denouement ∧
      (parentLosesSlot status → parent2.cell = none) ∧
      (¬ parentLosesSlot status → parent2.cell ≠ none) ∧
      p' = setNextEvent { parent4 with
                          prev_event_time := t
                          prev_event_type := some EventType.END_G1SG2M } := by
  unfold endOfG1SG2M at h
  dsimp only at h
  split at h
  · exact Except.noConfusion h
  · split at h
    · exact Except.noConfusion h
    · split at h
      · exact Except.noConfusion h
      · split at h
        · exact Except.noConfusion h
        · split at h
          · exact Except.noConfusion h
          · rename_i ocr hcheck
            split at h
            · exact Except.noConfusion h
            · rename_i parent2 status2 child2 sponge2 hres
              split at h
              · exact Except.noConfusion h
              · rename_i parent4 htail
                injection h with h'
                simp only [Prod.mk.injEq] at h'
                obtain ⟨h1, h2, h3, h4⟩ := h'
                subst h1
                subst h2
                have hRM := resolveMitosis_parent _ _ _ _ _ _ _ _ _ _ hres
                have hPT := parentTail_fields _ _ _ _ _ htail
                have hcne := checkForOpen_ok_cell _ _ _ _ _ hcheck
                exact ⟨parent2, parent4, hPT.2.2.2, hPT.1, hPT.2.1, hPT.2.2.1,
                  hRM.1, hRM.2.1, hRM.2.2.1, hRM.2.2.2.1, hRM.2.2.2.2.1,
                  hRM.2.2.2.2.2.1,
                  fun hn => hRM.2.2.2.2.2.2 hn hcne, rfl⟩

/-- claim C6 (amended) -- After a successful construction exactly one of
the two phase-end times is finite (the end-of-G0 time is finite, the
end-of-G1SG2M time infinite); after every successful `endOfG0` and
`endOfG1SG2M`, at most one of the two is finite — never both.  (Both may
be infinite: a scheduled digestion/escape replaces the next phase end, and
an evicted parent keeps no phase end at all.) -/
theorem phase_time_exclusivity :
    (∀ (clades : List Clade) (num_rows clade_number : ℤ) (cell : Cell)
        (t : ℚ) (next_id : ℤ) (rng : InitRNG) (s' : Symbiont),
        Symbiont.init clades num_rows clade_number cell t next_id rng = .ok s' →
        s'.time_of_next_end_g0 ≠ ⊤ ∧ s'.time_of_next_end_g1sg2m = ⊤) ∧
    (∀ (s : Symbiont) (t : ℚ) (rng : EndG0RNG) (s' : Symbiont),
        endOfG0 s t rng = .ok s' →
        ¬ (s'.time_of_next_end_g0 ≠ ⊤ ∧ s'.time_of_next_end_g1sg2m ≠ ⊤)) ∧
    (∀ (sp : Sponge) (s : Symbiont) (t : ℚ) (next_id : ℤ) (rng : EndG1RNG)
        (p' : Symbiont) (status : SymbiontState) (child : Symbiont) (sp' : Sponge),
        endOfG1SG2M sp s t next_id rng = .ok (p', status, child, sp') →
        ¬ (p'.time_of_next_end_g0 ≠ ⊤ ∧ p'.time_of_next_end_g1sg2m ≠ ⊤)) := by
  refine ⟨?_, ?_, ?_⟩
  · intro clades num_rows clade_number cell t next_id rng s' h
    unfold Symbiont.init at h
    dsimp only at h
    split at h
    · exact Except.noConfusion h
    · split at h
      · exact Except.noConfusion h
      · split at h
        · exact Except.noConfusion h
        · split at h
          · exact Except.noConfusion h
          · split at h
            · exact Except.noConfusion h
            · rename_i s2 hsched
              injection h with h'
              subst h'
              obtain ⟨hg0, hg1⟩ := scheduleInitialEvents_fields _ _ _ _ hsched
              constructor
              · show s2.time_of_next_end_g0 ≠ ⊤
                rw [hg0]
                exact WithTop.coe_ne_top
              · show s2.time_of_next_end_g1sg2m = ⊤
                rw [hg1]
  · intro s t rng s' h
    rw [endOfG0_clears_g0 s t rng s' h]
    simp
  · intro sp s t next_id rng p' status child sp' h
    obtain ⟨p2, p4, _, hg1, _, _, _, hg1top, _, _, _, _, _, hp'⟩ :=
      endOfG1SG2M_inv _ _ _ _ _ _ _ _ _ h
    subst hp'
    intro hboth
    exact hboth.2 (by show p4.time_of_next_end_g1sg2m = ⊤; rw [hg1, hg1top])

/-- claim C6 counterexample -- an `endOfG0` call whose G1SG2M projection
is negative (balance 0 after G0, demand 2, production 1) returns with the
end-of-G0 and the end-of-G1SG2M times both INFINITY (a digestion was
scheduled instead), so "exactly one of the two is finite" fails at this
point between dispatches. -/
theorem endOfG0_can_leave_both_phase_times_infinite :
    (endOfG0 symbC 10 rngC).map
        (fun s' => (s'.time_of_next_end_g0, s'.time_of_next_end_g1sg2m)) =
      .ok ((⊤ : Time), (⊤ : Time)) := by
  norm_num [endOfG0, computeSurplusAtEventEnd, symbC, symbA, cellB, cellA, cladeA, rngC,
    rng0, setNextEvent, optTime, Except.map]

/-- claim C6 (amended) witness: the three parts applied to concrete
successful runs — a pool arrival at time 0, an `endOfG0` at time 10, and a
parent-evicting `endOfG1SG2M` at time 12. -/
theorem phase_time_exclusivity_witness :
    (match Symbiont.init [cladeA] 3 0 cellA 0 0 initRng0 with
     | .ok s' => s'.time_of_next_end_g0 ≠ ⊤ ∧ s'.time_of_next_end_g1sg2m = ⊤
     | .error _ => False) ∧
    (match endOfG0 symbA 10 rngC with
     | .ok s' => ¬ (s'.time_of_next_end_g0 ≠ ⊤ ∧ s'.time_of_next_end_g1sg2m ≠ ⊤)
     | .error _ => False) ∧
    (match endOfG1SG2M spongeFull symbD 12 7 rngE with
     | .ok (p', _, _, _) => ¬ (p'.time_of_next_end_g0 ≠ ⊤ ∧ p'.time_of_next_end_g1sg2m ≠ ⊤)
     | .error _ => False) := by
  refine ⟨?_, ?_, ?_⟩
  · have hok : (Symbiont.init [cladeA] 3 0 cellA 0 0 initRng0).isOk = true := by
      norm_num [Symbiont.init, computeProductionRate, scheduleInitialEvents, setNextEvent,
        computeSurplusAtEventEnd, optTime, cladeA, cellA, initRng0, rng0, List.find?,
        Except.isOk, Except.toBool]
    rcases hres : Symbiont.init [cladeA] 3 0 cellA 0 0 initRng0 with e | s'
    · rw [hres] at hok
      simp [Except.isOk, Except.toBool] at hok
    · exact phase_time_exclusivity.1 _ _ _ _ _ _ _ _ hres
  · have hok : (endOfG0 symbA 10 rngC).isOk = true := by
      norm_num [endOfG0, computeSurplusAtEventEnd, symbA, cellA, cladeA, rngC, rng0,
        setNextEvent, optTime, Except.isOk, Except.toBool]
    rcases hres : endOfG0 symbA 10 rngC with e | s'
    · rw [hres] at hok
      simp [Except.isOk, Except.toBool] at hok
    · exact phase_time_exclusivity.2.1 _ _ _ _ hres
  · have hok : (endOfG1SG2M spongeFull symbD 12 7 rngE).isOk = true := by
      norm_num [endOfG1SG2M, computeSurplusAtEventEnd, checkForOpenAdjacentCell,
        searchOpenLoop, Sponge.getCell, resolveMitosis, symbiontCopy, computeProductionRate,
        scheduleInitialEvents, parentTail, setNextEvent, optTime, determinePhagocytosis,
        Cell.setSymbiont, Sponge.setCellAt, moorePositions, spongeFull, occCell, symbD,
        symbA, cladeA, cellA, rngE, copyRng1, rng0, Except.isOk, Except.toBool,
        WithTop.coe_lt_top, lt_top_iff_ne_top, ne_eq, WithTop.ofNat_ne_top]
    rcases hres : endOfG1SG2M spongeFull symbD 12 7 rngE with e | ⟨p', st, ch, sq⟩
    · rw [hres] at hok
      simp [Except.isOk, Except.toBool] at hok
    · exact phase_time_exclusivity.2.2 _ _ _ _ _ _ _ _ _ hres

/-- claim C7 (amended) -- After a successful `endOfG1SG2M` whose outcome
leaves the parent without a slot (PARENT_EVICTED, PARENT_INFECTS_OUTSIDE
or PARENT_NO_AFFINITY), the parent holds no cell, no next phase-A period
or replacement digestion/escape is computed for it, and its escape,
digestion and departure times are untouched — but its per-agent next-event
time is NOT infinite: it equals the departure (denouement) time scheduled
back at arrival (assuming, as at every real dispatch of this event, that
the symbiont entered with no pending end-of-G0, escape or digestion).  A
next phase-A end is finite afterwards only when the parent still occupies
some cell. -/
theorem parent_without_slot_no_further_schedule (sp : Sponge) (s : Symbiont)
    (t : ℚ) (next_id : ℤ) (rng : EndG1RNG) (p' : Symbiont)
    (status : SymbiontState) (child : Symbiont) (sp' : Sponge)
    (hg0 : s.time_of_next_end_g0 = ⊤)
    (h : endOfG1SG2M sp s t next_id rng = .ok (p', status, child, sp')) :
    (parentLosesSlot status →
      p'.cell = none ∧
      p'.time_of_next_end_g0 = ⊤ ∧
      p'.time_of_next_end_g1sg2m = ⊤ ∧
      p'.time_of_escape = s.time_of_escape ∧
      p'.time_of_digestion = s.time_of_digestion ∧
      p'.time_of_denouement = s.time_of_denouement ∧
      (s.time_of_escape = ⊤ → s.time_of_digestion = ⊤ →
        p'.next_event_time = s.time_of_denouement)) ∧
    (p'.time_of_next_end_g0 ≠ ⊤ → p'.cell ≠ none) := by
  obtain ⟨p2, p4, hskip, hg1, hcell, hden4, hg0eq, hg1top, hesc, hdig, hden2,
    hskipcell, hnoskip, hp'⟩ := endOfG1SG2M_inv _ _ _ _ _ _ _ _ _ h
  subst hp'
  constructor
  · intro hsk
    have h42 := hskip hsk
    refine ⟨?_, ?_, ?_, ?_, ?_, ?_, ?_⟩
    · show p4.cell = none
      rw [h42]
      exact hskipcell hsk
    · show p4.time_of_next_end_g0 = ⊤
      rw [h42, hg0eq, hg0]
    · show p4.time_of_next_end_g1sg2m = ⊤
      rw [hg1, hg1top]
    · show p4.time_of_escape = s.time_of_escape
      rw [h42]
      exact hesc
    · show p4.time_of_digestion = s.time_of_digestion
      rw [h42]
      exact hdig
    · show p4.time_of_denouement = s.time_of_denouement
      rw [h42]
      exact hden2
    · intro hse hsd
      have hnext := setNextEvent_next_of_denouement
        { p4 with prev_event_time := t, prev_event_type := some EventType.END_G1SG2M }
        (by show p4.time_of_next_end_g0 = ⊤; rw [h42, hg0eq, hg0])
        (by show p4.time_of_next_end_g1sg2m = ⊤; rw [hg1, hg1top])
        (by show p4.time_of_escape = ⊤; rw [h42, hesc, hse])
        (by show p4.time_of_digestion = ⊤; rw [h42, hdig, hsd])
      rw [hnext]
      show p4.time_of_denouement = s.time_of_denouement
      rw [h42]
      exact hden2
  · intro hne
    by_cases hsk : parentLosesSlot status
    · exfalso
      apply hne
      show p4.time_of_next_end_g0 = ⊤
      rw [hskip hsk, hg0eq, hg0]
    · show p4.cell ≠ none
      rw [hcell]
      exact hnoskip hsk

/-- claim C7 counterexample -- a concrete `endOfG1SG2M` with a fully
occupied 3-by-3 grid and an eviction draw of 0 resolves to
PARENT_EVICTED, yet the evicted parent's next-event time afterwards is
the finite denouement time 100 scheduled at its arrival — not "never
again finite" as the claim states. -/
theorem evicted_parent_next_event_time_finite :
    (endOfG1SG2M spongeFull symbD 12 7 rngE).map
        (fun r => (r.2.1, r.1.next_event_time)) =
      .ok (SymbiontState.PARENT_EVICTED, ((100 : ℚ) : Time)) ∧
    ((100 : ℚ) : Time) ≠ ⊤ := by
  constructor
  · norm_num [endOfG1SG2M, computeSurplusAtEventEnd, checkForOpenAdjacentCell,
      searchOpenLoop, Sponge.getCell, resolveMitosis, symbiontCopy, computeProductionRate,
      scheduleInitialEvents, parentTail, setNextEvent, optTime, determinePhagocytosis,
      Cell.setSymbiont, Sponge.setCellAt, moorePositions, spongeFull, occCell, symbD,
      symbA, cladeA, cellA, rngE, copyRng1, rng0, Except.map, WithTop.coe_lt_top,
      lt_top_iff_ne_top, ne_eq, WithTop.ofNat_ne_top]
  · exact WithTop.coe_ne_top

/-- claim C7 (amended) witness: the theorem applied to the concrete
parent-evicting run — the evicted parent keeps no cell, gets no phase-A
end, and a finite phase-A end would require a cell. -/
theorem parent_without_slot_no_further_schedule_witness :
    (match endOfG1SG2M spongeFull symbD 12 7 rngE with
     | .ok (p', status, _, _) =>
         (parentLosesSlot status →
           p'.cell = none ∧ p'.time_of_next_end_g0 = ⊤ ∧
           p'.next_event_time = symbD.time_of_denouement) ∧
         (p'.time_of_next_end_g0 ≠ ⊤ → p'.cell ≠ none)
     | .error _ => False) := by
  have hok : (endOfG1SG2M spongeFull symbD 12 7 rngE).isOk = true := by
    norm_num [endOfG1SG2M, computeSurplusAtEventEnd, checkForOpenAdjacentCell,
      searchOpenLoop, Sponge.getCell, resolveMitosis, symbiontCopy, computeProductionRate,
      scheduleInitialEvents, parentTail, setNextEvent, optTime, determinePhagocytosis,
      Cell.setSymbiont, Sponge.setCellAt, moorePositions, spongeFull, occCell, symbD,
      symbA, cladeA, cellA, rngE, copyRng1, rng0, Except.isOk, Except.toBool,
      WithTop.coe_lt_top, lt_top_iff_ne_top, ne_eq, WithTop.ofNat_ne_top]
  rcases hres : endOfG1SG2M spongeFull symbD 12 7 rngE with e | ⟨p', st, ch, sq⟩
  · rw [hres] at hok
    simp [Except.isOk, Except.toBool] at hok
  · have hthm := parent_without_slot_no_further_schedule spongeFull symbD 12 7 rngE
      p' st ch sq rfl hres
    exact ⟨fun hsk => ⟨(hthm.1 hsk).1, (hthm.1 hsk).2.1,
      (hthm.1 hsk).2.2.2.2.2.2 rfl rfl⟩, hthm.2⟩

/-- claim C8 -- After every successful `digestion` or `escape`, the
symbiont's resource balance is exactly 0 — in particular never negative
at that point. -/
theorem terminal_event_pins_surplus_to_zero :
    (∀ (s : Symbiont) (t : ℚ) (s' : Symbiont), digestion s t = .ok s' →
        s'.photosynthate_surplus = 0 ∧ 0 ≤ s'.photosynthate_surplus) ∧
    (∀ (s : Symbiont) (t : ℚ) (s' : Symbiont), escape s t = .ok s' →
        s'.photosynthate_surplus = 0 ∧ 0 ≤ s'.photosynthate_surplus) := by
  constructor
  · intro s t s' h
    unfold digestion at h
    dsimp only at h
    split at h
    · exact Except.noConfusion h
    · split at h
      · exact Except.noConfusion h
      · injection h with h'
        subst h'
        exact ⟨rfl, le_refl 0⟩
  · intro s t s' h
    unfold escape at h
    dsimp only at h
    split at h
    · exact Except.noConfusion h
    · split at h
      · exact Except.noConfusion h
      · injection h with h'
        subst h'
        exact ⟨rfl, le_refl 0⟩

/-- claim C8 witness: the theorem applied to a concrete digestion and
escape of the balance-5 agent at time 3. -/
theorem terminal_event_pins_surplus_to_zero_witness :
    (match digestion symbA 3 with
     | .ok s' => s'.photosynthate_surplus = 0 ∧ 0 ≤ s'.photosynthate_surplus
     | .error _ => False) ∧
    (match escape symbA 3 with
     | .ok s' => s'.photosynthate_surplus = 0 ∧ 0 ≤ s'.photosynthate_surplus
     | .error _ => False) := by
  constructor
  · have hok : (digestion symbA 3).isOk = true := by
      norm_num [digestion, Cell.removeSymbiont, symbA, cellA, Except.isOk, Except.toBool]
    rcases hres : digestion symbA 3 with e | s'
    · rw [hres] at hok
      simp [Except.isOk, Except.toBool] at hok
    · exact terminal_event_pins_surplus_to_zero.1 _ _ _ hres
  · have hok : (escape symbA 3).isOk = true := by
      norm_num [escape, Cell.removeSymbiont, symbA, cellA, Except.isOk, Except.toBool]
    rcases hres : escape symbA 3 with e | s'
    · rw [hres] at hok
      simp [Except.isOk, Except.toBool] at hok
    · exact terminal_event_pins_surplus_to_zero.2 _ _ _ hres

lemma searchOpenLoop_never_errors (sp : Sponge) (row col : ℤ)
    (hr0 : 0 ≤ row) (hr1 : row < sp.num_rows)
    (hc0 : 0 ≤ col) (hc1 : col < sp.num_cols) :
    ∀ ps : List (ℤ × ℤ), ∃ o, searchOpenLoop sp row col ps = .ok o := by
  intro ps
  induction ps with
  | nil => exact ⟨none, rfl⟩
  | cons p rest ih =>
    unfold searchOpenLoop
    by_cases hskip : row + p.1 < 0 ∨ row + p.1 ≥ sp.num_rows
    · rw [if_pos hskip]
      exact ih
    · rw [if_neg hskip]
      push_neg at hskip
      have hcols : 0 < sp.num_cols := lt_of_le_of_lt hc0 hc1
      have hget : sp.getCell (row + p.1) ((col + p.2) % sp.num_cols) =
          .ok (sp.cells (row + p.1) ((col + p.2) % sp.num_cols)) := by
        unfold Sponge.getCell
        rw [if_neg]
        push_neg
        exact ⟨hskip.1, hskip.2, Int.emod_nonneg _ (ne_of_gt hcols),
          Int.emod_lt_of_pos _ hcols⟩
      rw [hget]
      dsimp only
      by_cases hocc : ¬ (sp.cells (row + p.1) ((col + p.2) % sp.num_cols)).occupied
      · rw [if_pos hocc]
        exact ⟨some _, rfl⟩
      · rw [if_neg hocc]
        exact ih

/-- claim C9 -- For a parent cell with in-bounds coordinates, the Moore
neighbor search `_checkForOpenAdjacentCell` never reaches the
out-of-bounds `ValueError` branch of `Sponge.getCell`, for every shuffle
of the Moore offsets (rows outside [0, NUM_ROWS) are skipped before the
lookup, columns are reduced modulo NUM_COLS): the search always returns
normally. -/
theorem neighbor_search_stays_in_bounds (sp : Sponge) (s : Symbiont) (c : Cell)
    (ps : List (ℤ × ℤ)) (d : ℚ) (hc : s.cell = some c)
    (hr0 : 0 ≤ c.row) (hr1 : c.row < sp.num_rows)
    (hc0 : 0 ≤ c.col) (hc1 : c.col < sp.num_cols)
    (hps : ∀ p ∈ ps, p ∈ moorePositions) :
    (checkForOpenAdjacentCell sp s ps d).isOk = true := by
  unfold checkForOpenAdjacentCell
  rw [hc]
  dsimp only
  obtain ⟨o, ho⟩ := searchOpenLoop_never_errors sp c.row c.col hr0 hr1 hc0 hc1 ps.reverse
  rw [ho]
  rcases o with _ | oc
  · rfl
  · dsimp only
    split
    · split <;> rfl
    · rfl

/-- claim C9 witness: the theorem applied to the mid-grid parent of the
fully occupied 3-by-3 sponge with the unshuffled Moore list. -/
theorem neighbor_search_stays_in_bounds_witness :
    (checkForOpenAdjacentCell spongeFull symbD moorePositions 1).isOk = true :=
  neighbor_search_stays_in_bounds spongeFull symbD (occCell 1 1) moorePositions 1
    rfl (by decide) (by decide) (by decide) (by decide) (fun p hp => hp)

lemma findOpenCell_unoccupied (sp : Sponge) (pick : ℕ) (oc : Cell)
    (h : findOpenCell sp pick = .ok oc) : oc.occupied = false := by
  unfold findOpenCell at h
  dsimp only at h
  split at h
  · exact Except.noConfusion h
  · split at h
    · rename_i c hget
      injection h with h'
      subst h'
      have hmem : c ∈ openCellsList sp := List.get?_mem hget
      unfold openCellsList at hmem
      rw [List.mem_flatMap] at hmem
      obtain ⟨r, _, hmem⟩ := hmem
      rw [List.mem_filterMap] at hmem
      obtain ⟨co, _, hco⟩ := hmem
      dsimp only at hco
      split at hco
      · exact Option.noConfusion hco
      · rename_i hnocc
        injection hco with h''
        subst h''
        exact Bool.eq_false_iff.mpr hnocc
    · exact Except.noConfusion h

/-- claim C10 -- A successful `generateArrival` returns a symbiont if and
only if spare capacity exists and the arrival-affinity draw succeeds: it
returns no symbiont (and leaves the grid untouched) when the grid is at
capacity, and also whenever the affinity draw is not strictly below the
selected clade's arrival-affinity probability; a symbiont is returned
only with spare capacity and a successful affinity draw, and it is placed
into a previously open cell, which is occupied afterwards; and
conversely, with spare capacity and a successful affinity draw for the
selected clade a symbiont is always constructed and returned. -/
theorem generateArrival_placement_iff (clades : List Clade) (cumulative : List ℚ)
    (sp : Sponge) (current_time : ℚ) (num_symbionts next_id : ℤ)
    (rng : ArrivalRNG) (res : Option Symbiont) (sp2 : Sponge)
    (h : generateArrival clades cumulative sp current_time num_symbionts next_id rng =
      .ok (res, sp2)) :
    (num_symbionts = sp.num_rows * sp.num_cols → res = none ∧ sp2 = sp) ∧
    (∀ i c, chooseClade cumulative rng.clade_draw = .ok i → clades.get? i = some c →
      ¬ (rng.affinity_draw < c.arrival_affinity_prob) → res = none ∧ sp2 = sp) ∧
    (res.isSome →
      num_symbionts ≠ sp.num_rows * sp.num_cols ∧
      (∃ i c, chooseClade cumulative rng.clade_draw = .ok i ∧ clades.get? i = some c ∧
        rng.affinity_draw < c.arrival_affinity_prob) ∧
      (∃ oc, findOpenCell sp rng.open_cell_pick = .ok oc ∧ oc.occupied = false ∧
        (sp2.cells oc.row oc.col).occupied = true)) ∧
    (num_symbionts ≠ sp.num_rows * sp.num_cols →
      ∀ i c, chooseClade cumulative rng.clade_draw = .ok i → clades.get? i = some c →
        rng.affinity_draw < c.arrival_affinity_prob → res.isSome) := by
  unfold generateArrival at h
  dsimp only at h
  split at h
  · rename_i hcap
    injection h with h'
    simp only [Prod.mk.injEq] at h'
    obtain ⟨h1, h2⟩ := h'
    subst h1
    subst h2
    refine ⟨fun _ => ⟨rfl, rfl⟩, fun _ _ _ _ _ => ⟨rfl, rfl⟩, fun hs => ?_,
      fun hne' _ _ _ _ _ => absurd hcap hne'⟩
    simp at hs
  · rename_i hne
    split at h
    · exact Except.noConfusion h
    · rename_i clade hch
      split at h
      · exact Except.noConfusion h
      · rename_i this_clade hcl
        split at h
        · rename_i hphag
          have hphag' : rng.affinity_draw < this_clade.arrival_affinity_prob := by
            simpa [determinePhagocytosis] using hphag
          split at h
          · exact Except.noConfusion h
          · rename_i oc hfind
            split at h
            · exact Except.noConfusion h
            · rename_i sym hinit
              injection h with h'
              simp only [Prod.mk.injEq] at h'
              obtain ⟨h1, h2⟩ := h'
              subst h1
              subst h2
              refine ⟨fun hcap => absurd hcap hne, ?_, fun _ => ?_,
                fun _ _ _ _ _ _ => rfl⟩
              · intro i c hch' hcl' hnaff
                have hi : clade = i := by
                  have := hch.symm.trans hch'
                  exact Except.ok.inj this
                subst hi
                have hc : this_clade = c := by
                  have := hcl.symm.trans hcl'
                  exact Option.some.inj this
                subst hc
                exact absurd hphag' hnaff
              · refine ⟨hne, ⟨clade, this_clade, hch, hcl, hphag'⟩,
                  ⟨oc, hfind, findOpenCell_unoccupied _ _ _ hfind, ?_⟩⟩
                simp [Sponge.setCellAt, Cell.setSymbiont]
        · rename_i hphagf
          injection h with h'
          simp only [Prod.mk.injEq] at h'
          obtain ⟨h1, h2⟩ := h'
          subst h1
          subst h2
          refine ⟨fun hcap => absurd hcap hne, fun _ _ _ _ _ => ⟨rfl, rfl⟩,
            fun hs => ?_, ?_⟩
          · simp at hs
          · intro _ i c hch' hcl' haff
            have hi : clade = i := Except.ok.inj (hch.symm.trans hch')
            subst hi
            have hc : this_clade = c := Option.some.inj (hcl.symm.trans hcl')
            subst hc
            exact absurd (by simpa [determinePhagocytosis] using haff) hphagf

/-- claim C10 witness: the theorem applied to a concrete successful
arrival into an empty 2-by-1 grid — a symbiont is created and its cell is
occupied afterwards. -/
theorem generateArrival_placement_iff_witness :
    (match generateArrival [cladeA] [1] spongeOpen 0 0 5 arrivalRng0 with
     | .ok (res, sp2) =>
         res.isSome = true ∧
         (0 : ℤ) ≠ spongeOpen.num_rows * spongeOpen.num_cols ∧
         ∃ oc, findOpenCell spongeOpen 0 = .ok oc ∧ oc.occupied = false ∧
           (sp2.cells oc.row oc.col).occupied = true
     | .error _ => False) := by
  have hsome : (generateArrival [cladeA] [1] spongeOpen 0 0 5 arrivalRng0).map
      (fun r => r.1.isSome) = .ok true := by
    norm_num [generateArrival, chooseClade, chooseCladeLoop, determinePhagocytosis,
      findOpenCell, openCellsList, Symbiont.init, computeProductionRate,
      scheduleInitialEvents, setNextEvent, computeSurplusAtEventEnd, optTime,
      Cell.setSymbiont, Sponge.setCellAt, List.find?, show Int.toNat 2 = 2 from rfl,
      List.range_succ, List.range_zero, List.flatMap_cons, List.flatMap_nil,
      List.filterMap_cons, List.filterMap_nil, cladeA,
      openCell00, spongeOpen, initRng0, arrivalRng0, rng0, Except.map]
  rcases hres : generateArrival [cladeA] [1] spongeOpen 0 0 5 arrivalRng0 with e | ⟨res, sp2⟩
  · rw [hres] at hsome
    simp [Except.map] at hsome
  · rw [hres] at hsome
    simp only [Except.map] at hsome
    injection hsome with hsome'
    have hthm := generateArrival_placement_iff [cladeA] [1] spongeOpen 0 0 5 arrivalRng0
      res sp2 hres
    have hisSome : res.isSome := hthm.2.2.2 (by decide) 0 cladeA
      (by norm_num [chooseClade, chooseCladeLoop, arrivalRng0]) rfl
      (by norm_num [arrivalRng0, cladeA])
    obtain ⟨hne, _, hoc⟩ := hthm.2.2.1 hisSome
    exact ⟨hisSome, hne, hoc⟩
